import Mathlib

/-!
# Posts module: vote resolvers

A shallow embedding of `server/applogic/modules/posts/schema.js`: the role
check, the query-side resolvers (as the store query each one builds) and the
two mutations `upVote` and `downVote` (as functions on an explicit posts
collection that also report the store operations they issued and the socket
messages they emitted).

Conventions of the embedding.

* The posts collection is a list of documents; `findById` returns the first
  document with the given id, `findByIdAndUpdate` rewrites that document and,
  as with the option `new: true`, returns the rewritten document.
* The update operators are the store's: `$pull` removes every occurrence of a
  value from an array, `$addToSet` appends a value unless it is present,
  `$inc` adds to a number.
* A store call may fail; which calls of one resolver run fail is an input
  (`Faults`). A failed call changes nothing and reports its error.
* A promise ends resolved or rejected. An exception raised inside a task of
  `async.waterfall` is raised in a store callback, outside the promise
  executor: nothing settles the promise, which is the outcome `uncaught`.
  An exception raised inside a `.then` callback rejects the chain.
-/

namespace Posts

abbrev UserId := Nat
abbrev PostId := Nat

/-- User documents (`models/user`): the fields this module reads. -/
structure User where
  id : UserId
  roles : List String
  fullName : String
  code : String
  email : String
  gravatar : String
deriving DecidableEq, Repr

/-- Request context: the authenticated user. -/
structure Context where
  user : User
deriving DecidableEq, Repr

/-- Post documents (`model.post`): the fields this module reads or updates. -/
structure Post where
  id : PostId
  author : UserId
  upVoters : List UserId
  downVoters : List UserId
  votes : Int
deriving DecidableEq, Repr

/-- Modelled from the spec: the constant `C.ROLE_USER` of `core/constants`,
which is not part of the sources; the spec and the rejection message of the
mutations call it the "user" role. -/
def ROLE_USER : String := "user"

/-- JavaScript `indexOf`: position of the first occurrence, `-1` when absent. -/
def indexOf {α : Type} [DecidableEq α] (xs : List α) (x : α) : Int :=
  if x ∈ xs then (xs.indexOf x : Int) else -1

/-- Source: `hasRole(context, role)`. -/
def hasRole (context : Context) (role : String) : Bool :=
  indexOf context.user.roles role != -1

/-! ## Query side -/

inductive ModelName
  | Post
  | User
deriving DecidableEq, Repr

/-- Conditions of a `find`. -/
inductive Filter
  | all
  | byId (id : Nat)
  | idIn (ids : List UserId)
deriving DecidableEq, Repr

/-- A store query under construction. -/
structure Query where
  model : ModelName
  filter : Filter
  limit : Option Int
  skip : Option Int
  sort : Option String
deriving DecidableEq, Repr

/-- Arguments `limit`, `offset`, `sort` of the listing resolvers. -/
structure ListArgs where
  limit : Option Int
  offset : Option Int
  sort : Option String
deriving DecidableEq, Repr

/-- Truthiness of an optional number: defined and not zero. -/
def truthyNum : Option Int → Bool
  | some n => n != 0
  | none => false

/-- Truthiness of an optional string: defined and not empty. -/
def truthyStr : Option String → Bool
  | some s => s != ""
  | none => false

/-- Truthiness of an optional id. -/
def truthyId : Option Nat → Bool
  | some n => n != 0
  | none => false

/-- Source: `applyLimitOffsetSort(query, args)`. -/
def applyLimitOffsetSort (query : Query) (args : ListArgs) : Query :=
  let query := if truthyNum args.limit then { query with limit := args.limit } else query
  let query := if truthyNum args.offset then { query with skip := args.offset } else query
  let query := if truthyStr args.sort then { query with sort := args.sort } else query
  query

/-- `Model.find(conditions)`. -/
def find (model : ModelName) (conditions : Filter) : Query :=
  { model := model, filter := conditions, limit := none, skip := none, sort := none }

/-- What a query-side resolver returns: `null`, nothing, or an executed query.
Only `exec` reaches the store. -/
inductive Reply
  | null
  | undefined
  | exec (q : Query)
deriving DecidableEq, Repr

/-- Source: `resolvers.Query.posts`. -/
def posts (args : ListArgs) (context : Context) : Reply :=
  if !hasRole context ROLE_USER then
    .null
  else
    .exec (applyLimitOffsetSort (find .Post .all) args)

/-- Arguments of `resolvers.Query.post`. -/
structure PostArgs where
  id : Option Nat
  code : Option String
deriving DecidableEq, Repr

/-- Source: `resolvers.Query.post`; `decodeHex` is `hashids.decodeHex`, a
library outside the sources. -/
def post (decodeHex : String → Option Nat) (args : PostArgs) (context : Context) : Reply :=
  if !hasRole context ROLE_USER then
    .null
  else
    let id := if truthyStr args.code then decodeHex (args.code.getD "") else args.id
    match id with
    | some n => if truthyId id then .exec (find .Post (.byId n)) else .undefined
    | none => .undefined

/-- Source: `resolvers.Post.author`. -/
def author (post : Post) (context : Context) : Reply :=
  if !hasRole context ROLE_USER then
    .null
  else
    .exec (find .User (.byId post.author))

/-- Source: `resolvers.Post.upVoters`. -/
def upVoters (post : Post) (args : ListArgs) (context : Context) : Reply :=
  if !hasRole context ROLE_USER then
    .null
  else
    .exec (applyLimitOffsetSort (find .User (.idIn post.upVoters)) args)

/-- Source: `resolvers.Post.downVoters`. -/
def downVoters (post : Post) (args : ListArgs) (context : Context) : Reply :=
  if !hasRole context ROLE_USER then
    .null
  else
    .exec (applyLimitOffsetSort (find .User (.idIn post.downVoters)) args)

/-- Source: `resolvers.Post.voters`; `concat` is list append. -/
def voters (post : Post) (args : ListArgs) (context : Context) : Reply :=
  if !hasRole context ROLE_USER then
    .null
  else
    .exec (applyLimitOffsetSort (find .User (.idIn (post.upVoters ++ post.downVoters))) args)

/-! ## The store, as the mutations use it -/

inductive VoterField
  | upVoters
  | downVoters
deriving DecidableEq, Repr

/-- The update documents of the mutations: one array operator on one voter
list together with `$inc` on `votes`. -/
inductive Update
  | pull (field : VoterField) (uid : UserId) (inc : Int)
  | addToSet (field : VoterField) (uid : UserId) (inc : Int)
deriving DecidableEq, Repr

/-- Store operator `$pull`: every occurrence goes. -/
def pull (xs : List UserId) (u : UserId) : List UserId :=
  xs.filter (fun x => x != u)

/-- Store operator `$addToSet`: appended unless present. -/
def addToSet (xs : List UserId) (u : UserId) : List UserId :=
  if u ∈ xs then xs else xs ++ [u]

/-- Effect of an update document on one post. -/
def Update.apply : Update → Post → Post
  | .pull .upVoters u k, p => { p with upVoters := Posts.pull p.upVoters u, votes := p.votes + k }
  | .pull .downVoters u k, p => { p with downVoters := Posts.pull p.downVoters u, votes := p.votes + k }
  | .addToSet .upVoters u k, p =>
    { p with upVoters := Posts.addToSet p.upVoters u, votes := p.votes + k }
  | .addToSet .downVoters u k, p =>
    { p with downVoters := Posts.addToSet p.downVoters u, votes := p.votes + k }

/-- `Post.findById(id)`: the first document with that id, if any. -/
def findById (db : List Post) (id : PostId) : Option Post :=
  db.find? (fun p => p.id == id)

/-- Rewrites the first document with the given id. -/
def updateById (db : List Post) (id : PostId) (f : Post → Post) : List Post :=
  match db with
  | [] => []
  | p :: ps => if p.id = id then f p :: ps else p :: updateById ps id f

/-- `Post.findByIdAndUpdate(id, update, { new: true })`: the collection after
the update and the updated document (`none` when no document has that id). -/
def findByIdAndUpdate (db : List Post) (id : PostId) (u : Update) : List Post × Option Post :=
  (updateById db id u.apply, (findById db id).map u.apply)

/-- The author fields selected by `populate`: "fullName code email gravatar". -/
structure Author where
  id : UserId
  fullName : String
  code : String
  email : String
  gravatar : String
deriving DecidableEq, Repr

/-- A post whose `author` path has been populated (`none` when no user has
that id). -/
structure PostDoc where
  post : Post
  author : Option Author
deriving DecidableEq, Repr

def selectAuthor (u : User) : Author :=
  { id := u.id, fullName := u.fullName, code := u.code, email := u.email, gravatar := u.gravatar }

/-- Effect of populating `author` with the selected fields. -/
def populateAuthor (users : List User) (p : Post) : PostDoc :=
  { post := p, author := (users.find? (fun u => u.id == p.author)).map selectAuthor }

/-- The plain object `doc.toJSON()` sends out. -/
structure PostJSON where
  id : PostId
  author : Option Author
  upVoters : List UserId
  downVoters : List UserId
  votes : Int
deriving DecidableEq, Repr

def PostDoc.toJSON (d : PostDoc) : PostJSON :=
  { id := d.post.id, author := d.author, upVoters := d.post.upVoters,
    downVoters := d.post.downVoters, votes := d.post.votes }

/-- A message emitted on the "/posts" namespace. -/
structure Message where
  event : String
  payload : PostJSON
deriving DecidableEq, Repr

/-- Errors a mutation can end with. -/
inductive Reason
  | str (msg : String)
  | error (msg : String)
  | typeError
  | store (code : Nat)
deriving DecidableEq, Repr

/-- How the promise returned by a mutation ends. -/
inductive Outcome
  | resolved (doc : PostDoc)
  | rejected (reason : Reason)
  | uncaught (reason : Reason)
deriving DecidableEq, Repr

/-- Store calls issued by a mutation. -/
inductive StoreOp
  | findById (id : PostId)
  | findByIdAndUpdate (id : PostId) (u : Update)
  | populate (author : UserId)
deriving DecidableEq, Repr

def StoreOp.isUpdate : StoreOp → Bool
  | .findByIdAndUpdate _ _ => true
  | _ => false

/-- Which store calls of one mutation run fail, and with what error: the
lookup, the `$pull` update, the `$addToSet` update, the author population. -/
structure Faults where
  find : Option Nat
  pull : Option Nat
  add : Option Nat
  populate : Option Nat
deriving DecidableEq, Repr

def Faults.none : Faults :=
  { find := Option.none, pull := Option.none, add := Option.none, populate := Option.none }

/-- What surrounds one mutation run: the users collection, whether
`io.namespaces["/posts"]` is set, and the store faults. -/
structure Env where
  users : List User
  namespaceRegistered : Bool
  faults : Faults
deriving DecidableEq, Repr

/-- Everything observable of one mutation run. -/
structure Result where
  outcome : Outcome
  db : List Post
  ops : List StoreOp
  emitted : List Message
deriving DecidableEq, Repr

/-- Arguments of the mutations. -/
structure VoteArgs where
  postID : PostId
deriving DecidableEq, Repr

def mustHaveRole : String := "Must has \x27user\x27 role for this function!"

def alreadyVoted : String := "You have already voted this post!"

/-- Source: the last step of both mutations: serialize, emit "update" when the
namespace is registered, hand the document back. -/
def respond (env : Env) (db : List Post) (ops : List StoreOp) (doc : PostDoc) : Result :=
  let json := doc.toJSON
  { outcome := .resolved doc, db := db, ops := ops,
    emitted := if env.namespaceRegistered then [{ event := "update", payload := json }] else [] }

/-! ## upVote -/

/-- Source: waterfall task `populateAuthorOfPost(doc, done)` and the final
callback. `doc.populate` on `null` raises inside the task. -/
def populateAuthorOfPost (env : Env) (db : List Post) (ops : List StoreOp)
    (doc : Option Post) : Result :=
  match doc with
  | Option.none => { outcome := .uncaught .typeError, db := db, ops := ops, emitted := [] }
  | some d =>
    match env.faults.populate with
    | some e =>
      { outcome := .rejected (.store e), db := db, ops := ops ++ [.populate d.author],
        emitted := [] }
    | Option.none => respond env db (ops ++ [.populate d.author]) (populateAuthor env.users d)

/-- Source: waterfall task `addUserToUpVoters(doc, done)`; the incoming `doc`
is not used. -/
def addUserToUpVoters (env : Env) (db : List Post) (ops : List StoreOp) (postID : PostId)
    (user : User) : Result :=
  let u := Update.addToSet .upVoters user.id 1
  match env.faults.add with
  | some e =>
    { outcome := .rejected (.store e), db := db, ops := ops ++ [.findByIdAndUpdate postID u],
      emitted := [] }
  | Option.none =>
    let r := findByIdAndUpdate db postID u
    populateAuthorOfPost env r.1 (ops ++ [.findByIdAndUpdate postID u]) r.2

/-- Source: waterfall task `removeUserFromDownVoters(post, done)`. -/
def removeUserFromDownVoters (env : Env) (db : List Post) (ops : List StoreOp)
    (postID : PostId) (user : User) (post : Post) : Result :=
  if indexOf post.downVoters user.id ≠ -1 then
    let u := Update.pull .downVoters user.id 1
    match env.faults.pull with
    | some e =>
      { outcome := .rejected (.store e), db := db, ops := ops ++ [.findByIdAndUpdate postID u],
        emitted := [] }
    | Option.none =>
      let r := findByIdAndUpdate db postID u
      addUserToUpVoters env r.1 (ops ++ [.findByIdAndUpdate postID u]) postID user
  else
    addUserToUpVoters env db ops postID user

/-- Source: waterfall task `checkUserInIsUpVoters(post, done)`; reading
`post.upVoters` of `null` raises inside the task. -/
def checkUserInIsUpVoters (env : Env) (db : List Post) (ops : List StoreOp)
    (postID : PostId) (user : User) (post : Option Post) : Result :=
  match post with
  | Option.none => { outcome := .uncaught .typeError, db := db, ops := ops, emitted := [] }
  | some post =>
    if indexOf post.upVoters user.id ≠ -1 then
      { outcome := .rejected (.str alreadyVoted), db := db, ops := ops, emitted := [] }
    else
      removeUserFromDownVoters env db ops postID user post

/-- Source: `resolvers.Mutation.upVote`. -/
def upVote (env : Env) (db : List Post) (args : VoteArgs) (context : Context) : Result :=
  let user := context.user
  let postID := args.postID
  if !hasRole context ROLE_USER then
    { outcome := .rejected (.str mustHaveRole), db := db, ops := [], emitted := [] }
  else
    match env.faults.find with
    | some e =>
      { outcome := .rejected (.store e), db := db, ops := [.findById postID], emitted := [] }
    | Option.none =>
      checkUserInIsUpVoters env db [.findById postID] postID user (findById db postID)

/-! ## downVote -/

/-- Source: the steps "Populate author" and "Send back the response" of
`downVote`. `Post.populate` of no document yields none, and `doc.toJSON()`
then raises inside `.then`. -/
def populateAndRespond (env : Env) (db : List Post) (ops : List StoreOp)
    (doc : Option Post) : Result :=
  match doc with
  | Option.none => { outcome := .rejected .typeError, db := db, ops := ops, emitted := [] }
  | some d =>
    match env.faults.populate with
    | some e =>
      { outcome := .rejected (.store e), db := db, ops := ops ++ [.populate d.author],
        emitted := [] }
    | Option.none => respond env db (ops ++ [.populate d.author]) (populateAuthor env.users d)

/-- Source: the step "Add user to downVoters" of `downVote`. Its `post` is
what the previous step returned; reading `post.id` of nothing raises inside
`.then`. -/
def addUserToDownVoters (env : Env) (db : List Post) (ops : List StoreOp)
    (user : User) (post : Option Post) : Result :=
  match post with
  | Option.none => { outcome := .rejected .typeError, db := db, ops := ops, emitted := [] }
  | some post =>
    let u := Update.addToSet .downVoters user.id (-1)
    match env.faults.add with
    | some e =>
      { outcome := .rejected (.store e), db := db, ops := ops ++ [.findByIdAndUpdate post.id u],
        emitted := [] }
    | Option.none =>
      let r := findByIdAndUpdate db post.id u
      populateAndRespond env r.1 (ops ++ [.findByIdAndUpdate post.id u]) r.2

/-- Source: the step "Remove user from upVoters if it is on the list" of
`downVote`. When the user is not on the list the callback returns nothing,
and nothing is what the next step receives. -/
def removeUserFromUpVoters (env : Env) (db : List Post) (ops : List StoreOp)
    (user : User) (post : Post) : Result :=
  if indexOf post.upVoters user.id ≠ -1 then
    let u := Update.pull .upVoters user.id (-1)
    match env.faults.pull with
    | some e =>
      { outcome := .rejected (.store e), db := db, ops := ops ++ [.findByIdAndUpdate post.id u],
        emitted := [] }
    | Option.none =>
      let r := findByIdAndUpdate db post.id u
      addUserToDownVoters env r.1 (ops ++ [.findByIdAndUpdate post.id u]) user r.2
  else
    addUserToDownVoters env db ops user Option.none

/-- Source: the step "Check user is on downVoters" of `downVote`; reading
`post.downVoters` of `null` raises inside `.then`. -/
def checkUserIsOnDownVoters (env : Env) (db : List Post) (ops : List StoreOp)
    (user : User) (post : Option Post) : Result :=
  match post with
  | Option.none => { outcome := .rejected .typeError, db := db, ops := ops, emitted := [] }
  | some post =>
    if indexOf post.downVoters user.id ≠ -1 then
      { outcome := .rejected (.error alreadyVoted), db := db, ops := ops, emitted := [] }
    else
      removeUserFromUpVoters env db ops user post

/-- Source: `resolvers.Mutation.downVote`. -/
def downVote (env : Env) (db : List Post) (args : VoteArgs) (context : Context) : Result :=
  let user := context.user
  let postID := args.postID
  if !hasRole context ROLE_USER then
    { outcome := .rejected (.str mustHaveRole), db := db, ops := [], emitted := [] }
  else
    match env.faults.find with
    | some e =>
      { outcome := .rejected (.store e), db := db, ops := [.findById postID], emitted := [] }
    | Option.none =>
      checkUserIsOnDownVoters env db [.findById postID] user (findById db postID)

/-! ## Sequences of calls -/

inductive Direction
  | up
  | down
deriving DecidableEq, Repr

/-- One vote call with its surroundings. -/
structure Call where
  dir : Direction
  env : Env
  args : VoteArgs
  context : Context
deriving DecidableEq, Repr

/-- Runs one call against the collection. -/
def Call.run (c : Call) (db : List Post) : Result :=
  match c.dir with
  | .up => upVote c.env db c.args c.context
  | .down => downVote c.env db c.args c.context

/-- Runs calls one at a time, each against the collection the previous one left. -/
def runCalls (db : List Post) : List Call → List Post
  | [] => db
  | c :: cs => runCalls (c.run db).db cs

/-- Invariant I1 on one post: no duplicates, no common voter. -/
def Disjointness (p : Post) : Prop :=
  p.upVoters.Nodup ∧ p.downVoters.Nodup ∧ ∀ u, ¬ (u ∈ p.upVoters ∧ u ∈ p.downVoters)

/-- Invariant I2 on one post. -/
def TallyConsistent (p : Post) : Prop :=
  p.votes = (p.upVoters.length : Int) - (p.downVoters.length : Int)

/-- The same surroundings with the namespace registration set to `b`. -/
def Env.withNamespace (env : Env) (b : Bool) : Env :=
  { env with namespaceRegistered := b }

/-- The same call with the namespace registration set to `b`. -/
def Call.withNamespace (c : Call) (b : Bool) : Call :=
  { c with env := c.env.withNamespace b }

/-! ## Sample data -/

def userOf (id : UserId) (roles : List String) : User :=
  { id := id, roles := roles, fullName := "", code := "", email := "", gravatar := "" }

/-- Voter `U1` of the scenarios. -/
def U1 : User := userOf 1 ["user"]

/-- Voter `U2` of the scenarios. -/
def U2 : User := userOf 2 ["user"]

/-- A signed-in visitor without the user role. -/
def guest : User := userOf 3 ["guest"]

def liveEnv : Env :=
  { users := [U1, U2], namespaceRegistered := true, faults := Faults.none }

/-- Post `P` of the scenarios as created: no voters, tally zero. -/
def freshPost : Post :=
  { id := 10, author := 2, upVoters := [], downVoters := [], votes := 0 }

/-- Post `P` after scenario A. -/
def upVotedPost : Post :=
  { id := 10, author := 2, upVoters := [1], downVoters := [], votes := 1 }

/-- Post `P` after scenario B. -/
def downVotedPost : Post :=
  { id := 10, author := 2, upVoters := [], downVoters := [1], votes := -1 }

def voteCall (dir : Direction) (user : User) (postID : PostId) : Call :=
  { dir := dir, env := liveEnv, args := { postID := postID }, context := { user := user } }

/-- A mixed run: votes, a switch, a repeated vote, a vote on an unknown post,
a vote by a visitor without the role, and a switch whose second update fails. -/
def sampleCalls : List Call :=
  [voteCall .up U1 10, voteCall .up U2 10, voteCall .down U1 10, voteCall .down U1 10,
   voteCall .up U2 11, voteCall .down guest 10,
   { dir := .down, env := { liveEnv with faults := { Faults.none with add := some 5 } },
     args := { postID := 10 }, context := { user := U2 } }]

/-! ## Basic facts about the embedding -/

theorem indexOf_ne_iff {α : Type} [DecidableEq α] (xs : List α) (x : α) :
    indexOf xs x ≠ -1 ↔ x ∈ xs := by
  unfold indexOf
  by_cases h : x ∈ xs
  · simp only [h, if_true, iff_true]
    omega
  · simp [h]

theorem hasRole_iff (context : Context) (role : String) :
    hasRole context role = true ↔ role ∈ context.user.roles := by
  unfold hasRole
  rw [bne_iff_ne]
  exact indexOf_ne_iff _ _

theorem hasRole_false_iff (context : Context) (role : String) :
    hasRole context role = false ↔ role ∉ context.user.roles := by
  rw [← hasRole_iff]
  simp

theorem findById_id {db : List Post} {id : PostId} {p : Post} (h : findById db id = some p) :
    p.id = id := by
  unfold findById at h
  have := List.find?_some h
  simpa using this

theorem Update.apply_id (u : Update) (p : Post) : (u.apply p).id = p.id := by
  cases u with
  | pull f uid k => cases f <;> rfl
  | addToSet f uid k => cases f <;> rfl

theorem findById_cons (p : Post) (ps : List Post) (id : PostId) :
    findById (p :: ps) id = if p.id = id then some p else findById ps id := by
  unfold findById
  by_cases h : p.id = id
  · simp [List.find?_cons, h]
  · simp [List.find?_cons, h]

theorem findById_updateById (db : List Post) (id id' : PostId) (f : Post → Post)
    (hf : ∀ p, (f p).id = p.id) :
    findById (updateById db id f) id' =
      if id' = id then (findById db id).map f else findById db id' := by
  induction db with
  | nil => simp [updateById, findById]
  | cons p ps ih =>
    unfold updateById
    by_cases hp : p.id = id
    · by_cases hid : id' = id
      · subst hid
        simp [hp, hf, findById_cons]
      · have hne : ¬ id = id' := fun h => hid h.symm
        simp [hp, hid, hf, hne, findById_cons]
    · by_cases hid : id' = id
      · subst hid
        simp only [if_true] at ih
        simp [hp, findById_cons, ih]
      · simp only [hid, if_false] at ih
        simp [hp, hid, findById_cons, ih]

theorem findById_update_same (db : List Post) (id : PostId) (u : Update) :
    findById (updateById db id u.apply) id = (findById db id).map u.apply := by
  rw [findById_updateById db id id u.apply (Update.apply_id u)]
  simp

theorem findById_update_other (db : List Post) (id id' : PostId) (u : Update) (h : id' ≠ id) :
    findById (updateById db id u.apply) id' = findById db id' := by
  rw [findById_updateById db id id' u.apply (Update.apply_id u)]
  simp [h]

theorem mem_pull (xs : List UserId) (u v : UserId) : v ∈ pull xs u ↔ v ∈ xs ∧ v ≠ u := by
  simp [pull]

theorem mem_addToSet (xs : List UserId) (u v : UserId) : v ∈ addToSet xs u ↔ v ∈ xs ∨ v = u := by
  unfold addToSet
  by_cases h : u ∈ xs
  · simp only [h, if_true]
    constructor
    · exact Or.inl
    · rintro (h1 | h1)
      · exact h1
      · exact h1 ▸ h
  · simp [h]

theorem nodup_pull {xs : List UserId} (u : UserId) (h : xs.Nodup) : (pull xs u).Nodup :=
  h.filter _

theorem nodup_addToSet {xs : List UserId} (u : UserId) (h : xs.Nodup) : (addToSet xs u).Nodup := by
  unfold addToSet
  by_cases hu : u ∈ xs
  · simpa [hu] using h
  · simp only [hu, if_false]
    rw [List.nodup_append]
    refine ⟨h, List.nodup_singleton u, ?_⟩
    intro a ha hb
    simp at hb
    exact hu (hb ▸ ha)

theorem length_pull {xs : List UserId} (u : UserId) (h : xs.Nodup) (hu : u ∈ xs) :
    ((pull xs u).length : Int) = (xs.length : Int) - 1 := by
  have h1 : pull xs u = xs.erase u := by
    unfold pull
    rw [h.erase_eq_filter]
  rw [h1, List.length_erase_of_mem hu]
  have : 0 < xs.length := List.length_pos_of_mem hu
  omega

theorem length_addToSet {xs : List UserId} (u : UserId) (hu : u ∉ xs) :
    ((addToSet xs u).length : Int) = (xs.length : Int) + 1 := by
  simp [addToSet, hu]

/-! ## The invariants under the four update documents -/

theorem disjointness_pull_down {p : Post} (u : UserId) (k : Int) (h : Disjointness p) :
    Disjointness ((Update.pull .downVoters u k).apply p) := by
  obtain ⟨h1, h2, h3⟩ := h
  refine ⟨h1, nodup_pull u h2, ?_⟩
  intro v hv
  exact h3 v ⟨hv.1, ((mem_pull _ _ _).1 hv.2).1⟩

theorem disjointness_pull_up {p : Post} (u : UserId) (k : Int) (h : Disjointness p) :
    Disjointness ((Update.pull .upVoters u k).apply p) := by
  obtain ⟨h1, h2, h3⟩ := h
  refine ⟨nodup_pull u h1, h2, ?_⟩
  intro v hv
  exact h3 v ⟨((mem_pull _ _ _).1 hv.1).1, hv.2⟩

theorem disjointness_add_up {p : Post} (u : UserId) (k : Int) (h : Disjointness p)
    (hu : u ∉ p.downVoters) : Disjointness ((Update.addToSet .upVoters u k).apply p) := by
  obtain ⟨h1, h2, h3⟩ := h
  refine ⟨nodup_addToSet u h1, h2, ?_⟩
  intro v hv
  rcases (mem_addToSet _ _ _).1 hv.1 with hm | hm
  · exact h3 v ⟨hm, hv.2⟩
  · exact hu (hm ▸ hv.2)

theorem disjointness_add_down {p : Post} (u : UserId) (k : Int) (h : Disjointness p)
    (hu : u ∉ p.upVoters) : Disjointness ((Update.addToSet .downVoters u k).apply p) := by
  obtain ⟨h1, h2, h3⟩ := h
  refine ⟨h1, nodup_addToSet u h2, ?_⟩
  intro v hv
  rcases (mem_addToSet _ _ _).1 hv.2 with hm | hm
  · exact h3 v ⟨hv.1, hm⟩
  · exact hu (hm ▸ hv.1)

theorem tally_pull_down {p : Post} (u : UserId) (hd : Disjointness p) (h : TallyConsistent p)
    (hu : u ∈ p.downVoters) : TallyConsistent ((Update.pull .downVoters u 1).apply p) := by
  unfold TallyConsistent at h ⊢
  show p.votes + 1 = (p.upVoters.length : Int) - ((pull p.downVoters u).length : Int)
  rw [length_pull u hd.2.1 hu, h]
  omega

theorem tally_pull_up {p : Post} (u : UserId) (hd : Disjointness p) (h : TallyConsistent p)
    (hu : u ∈ p.upVoters) : TallyConsistent ((Update.pull .upVoters u (-1)).apply p) := by
  unfold TallyConsistent at h ⊢
  show p.votes + -1 = ((pull p.upVoters u).length : Int) - (p.downVoters.length : Int)
  rw [length_pull u hd.1 hu, h]
  omega

theorem tally_add_up {p : Post} (u : UserId) (h : TallyConsistent p) (hu : u ∉ p.upVoters) :
    TallyConsistent ((Update.addToSet .upVoters u 1).apply p) := by
  unfold TallyConsistent at h ⊢
  show p.votes + 1 = ((addToSet p.upVoters u).length : Int) - (p.downVoters.length : Int)
  rw [length_addToSet u hu, h]
  omega

theorem tally_add_down {p : Post} (u : UserId) (h : TallyConsistent p) (hu : u ∉ p.downVoters) :
    TallyConsistent ((Update.addToSet .downVoters u (-1)).apply p) := by
  unfold TallyConsistent at h ⊢
  show p.votes + -1 = (p.upVoters.length : Int) - ((addToSet p.downVoters u).length : Int)
  rw [length_addToSet u hu, h]
  omega

/-! ## What a mutation can leave in the collection -/

theorem respond_db (env : Env) (db : List Post) (ops : List StoreOp) (doc : PostDoc) :
    (respond env db ops doc).db = db := rfl

theorem populateAuthorOfPost_db (env : Env) (db : List Post) (ops : List StoreOp)
    (doc : Option Post) : (populateAuthorOfPost env db ops doc).db = db := by
  unfold populateAuthorOfPost
  split
  · rfl
  · split <;> rfl

theorem populateAndRespond_db (env : Env) (db : List Post) (ops : List StoreOp)
    (doc : Option Post) : (populateAndRespond env db ops doc).db = db := by
  unfold populateAndRespond
  split
  · rfl
  · split <;> rfl

theorem addUserToUpVoters_db (env : Env) (db : List Post) (ops : List StoreOp) (postID : PostId)
    (user : User) :
    (addUserToUpVoters env db ops postID user).db = db ∨
    (addUserToUpVoters env db ops postID user).db =
      updateById db postID (Update.addToSet .upVoters user.id 1).apply := by
  unfold addUserToUpVoters
  simp only []
  split
  · exact Or.inl rfl
  · right
    rw [populateAuthorOfPost_db]
    rfl

theorem addUserToDownVoters_db (env : Env) (db : List Post) (ops : List StoreOp) (user : User)
    (post : Option Post) :
    (addUserToDownVoters env db ops user post).db = db ∨
    ∃ p, post = some p ∧ (addUserToDownVoters env db ops user post).db =
      updateById db p.id (Update.addToSet .downVoters user.id (-1)).apply := by
  unfold addUserToDownVoters
  split
  · exact Or.inl rfl
  · rename_i p
    simp only []
    split
    · exact Or.inl rfl
    · right
      refine ⟨p, rfl, ?_⟩
      rw [populateAndRespond_db]
      rfl

/-- The collections `upVote` can leave: the one it found; or, for a stored
post the user has not up-voted, the one with the user added to `upVoters`,
after the user was pulled from `downVoters` when listed there; or, when the
second update failed, the one with the user only pulled. -/
theorem upVote_db (env : Env) (db : List Post) (args : VoteArgs) (context : Context) :
    (upVote env db args context).db = db ∨
    ∃ p, findById db args.postID = some p ∧ context.user.id ∉ p.upVoters ∧
      ((context.user.id ∉ p.downVoters ∧ (upVote env db args context).db =
          updateById db args.postID (Update.addToSet .upVoters context.user.id 1).apply) ∨
       (context.user.id ∈ p.downVoters ∧
         ((upVote env db args context).db =
            updateById db args.postID (Update.pull .downVoters context.user.id 1).apply ∨
          (upVote env db args context).db =
            updateById (updateById db args.postID (Update.pull .downVoters context.user.id 1).apply)
              args.postID (Update.addToSet .upVoters context.user.id 1).apply))) := by
  unfold upVote
  simp only []
  split
  · exact Or.inl rfl
  · split
    · exact Or.inl rfl
    · unfold checkUserInIsUpVoters
      split
      · exact Or.inl rfl
      · rename_i p hp
        split
        · exact Or.inl rfl
        · rename_i hup
          rw [indexOf_ne_iff] at hup
          unfold removeUserFromDownVoters
          split
          · rename_i hdown
            rw [indexOf_ne_iff] at hdown
            simp only []
            split
            · exact Or.inl rfl
            · rcases addUserToUpVoters_db env
                (findByIdAndUpdate db args.postID (Update.pull .downVoters context.user.id 1)).1
                ([StoreOp.findById args.postID] ++
                  [StoreOp.findByIdAndUpdate args.postID (Update.pull .downVoters context.user.id 1)])
                args.postID context.user with h | h
              · exact Or.inr ⟨p, hp, hup, Or.inr ⟨hdown, Or.inl h⟩⟩
              · exact Or.inr ⟨p, hp, hup, Or.inr ⟨hdown, Or.inr h⟩⟩
          · rename_i hdown
            rw [indexOf_ne_iff] at hdown
            rcases addUserToUpVoters_db env db [StoreOp.findById args.postID]
                args.postID context.user with h | h
            · exact Or.inl h
            · exact Or.inr ⟨p, hp, hup, Or.inl ⟨hdown, h⟩⟩

/-- The collections `downVote` can leave: the one it found; or, for a stored
post the user has up-voted and not down-voted, the one with the user pulled
from `upVoters`, and then added to `downVoters` unless the second update
failed. -/
theorem downVote_db (env : Env) (db : List Post) (args : VoteArgs) (context : Context) :
    (downVote env db args context).db = db ∨
    ∃ p, findById db args.postID = some p ∧ context.user.id ∉ p.downVoters ∧
      context.user.id ∈ p.upVoters ∧
      ((downVote env db args context).db =
          updateById db args.postID (Update.pull .upVoters context.user.id (-1)).apply ∨
       (downVote env db args context).db =
          updateById (updateById db args.postID (Update.pull .upVoters context.user.id (-1)).apply)
            args.postID (Update.addToSet .downVoters context.user.id (-1)).apply) := by
  unfold downVote
  simp only []
  split
  · exact Or.inl rfl
  · split
    · exact Or.inl rfl
    · unfold checkUserIsOnDownVoters
      split
      · exact Or.inl rfl
      · rename_i p hp
        have hid : p.id = args.postID := findById_id hp
        split
        · exact Or.inl rfl
        · rename_i hdown
          rw [indexOf_ne_iff] at hdown
          unfold removeUserFromUpVoters
          split
          · rename_i hup
            rw [indexOf_ne_iff] at hup
            simp only []
            split
            · exact Or.inl rfl
            · rw [hid]
              rcases addUserToDownVoters_db env
                (findByIdAndUpdate db args.postID (Update.pull .upVoters context.user.id (-1))).1
                ([StoreOp.findById args.postID] ++
                  [StoreOp.findByIdAndUpdate args.postID
                    (Update.pull .upVoters context.user.id (-1))])
                context.user
                (findByIdAndUpdate db args.postID (Update.pull .upVoters context.user.id (-1))).2
                with h | ⟨q, hq, h⟩
              · exact Or.inr ⟨p, hp, hdown, hup, Or.inl h⟩
              · have hq2 : q.id = args.postID := by
                  simp only [findByIdAndUpdate, hp, Option.map_some'] at hq
                  have := Option.some.inj hq
                  rw [← this, Update.apply_id, hid]
                rw [hq2] at h
                exact Or.inr ⟨p, hp, hdown, hup, Or.inr h⟩
          · left
            unfold addUserToDownVoters
            rfl

/-- One mutation keeps a stored post stored and keeps I1 and I2 on it. -/
theorem upVote_preserves (env : Env) (db : List Post) (args : VoteArgs) (context : Context)
    (pid : PostId) (p : Post) (hp : findById db pid = some p) (hd : Disjointness p)
    (ht : TallyConsistent p) :
    ∃ q, findById (upVote env db args context).db pid = some q ∧ Disjointness q ∧
      TallyConsistent q := by
  rcases upVote_db env db args context with h | ⟨p0, hp0, hup, h⟩
  · rw [h]
    exact ⟨p, hp, hd, ht⟩
  · by_cases hpid : pid = args.postID
    · subst hpid
      have hpp : p0 = p := Option.some.inj (hp0.symm.trans hp)
      subst hpp
      rcases h with ⟨hdown, h⟩ | ⟨hdown, h | h⟩
      · rw [h, findById_update_same, hp0]
        exact ⟨_, rfl, disjointness_add_up _ _ hd hdown, tally_add_up _ ht hup⟩
      · rw [h, findById_update_same, hp0]
        exact ⟨_, rfl, disjointness_pull_down _ _ hd, tally_pull_down _ hd ht hdown⟩
      · rw [h, findById_update_same, findById_update_same, hp0]
        have hd1 := disjointness_pull_down context.user.id 1 hd
        have ht1 := tally_pull_down context.user.id hd ht hdown
        have hdown1 : context.user.id ∉
            ((Update.pull .downVoters context.user.id 1).apply p0).downVoters := by
          intro hm
          exact ((mem_pull _ _ _).1 hm).2 rfl
        exact ⟨_, rfl, disjointness_add_up _ _ hd1 hdown1, tally_add_up _ ht1 hup⟩
    · refine ⟨p, ?_, hd, ht⟩
      rcases h with ⟨_, h⟩ | ⟨_, h | h⟩
      · rw [h, findById_update_other _ _ _ _ hpid, hp]
      · rw [h, findById_update_other _ _ _ _ hpid, hp]
      · rw [h, findById_update_other _ _ _ _ hpid, findById_update_other _ _ _ _ hpid, hp]

theorem downVote_preserves (env : Env) (db : List Post) (args : VoteArgs) (context : Context)
    (pid : PostId) (p : Post) (hp : findById db pid = some p) (hd : Disjointness p)
    (ht : TallyConsistent p) :
    ∃ q, findById (downVote env db args context).db pid = some q ∧ Disjointness q ∧
      TallyConsistent q := by
  rcases downVote_db env db args context with h | ⟨p0, hp0, hdown, hup, h⟩
  · rw [h]
    exact ⟨p, hp, hd, ht⟩
  · by_cases hpid : pid = args.postID
    · subst hpid
      have hpp : p0 = p := Option.some.inj (hp0.symm.trans hp)
      subst hpp
      rcases h with h | h
      · rw [h, findById_update_same, hp0]
        exact ⟨_, rfl, disjointness_pull_up _ _ hd, tally_pull_up _ hd ht hup⟩
      · rw [h, findById_update_same, findById_update_same, hp0]
        have hd1 := disjointness_pull_up context.user.id (-1) hd
        have ht1 := tally_pull_up context.user.id hd ht hup
        have hup1 : context.user.id ∉
            ((Update.pull .upVoters context.user.id (-1)).apply p0).upVoters := by
          intro hm
          exact ((mem_pull _ _ _).1 hm).2 rfl
        exact ⟨_, rfl, disjointness_add_down _ _ hd1 hup1, tally_add_down _ ht1 hdown⟩
    · refine ⟨p, ?_, hd, ht⟩
      rcases h with h | h
      · rw [h, findById_update_other _ _ _ _ hpid, hp]
      · rw [h, findById_update_other _ _ _ _ hpid, findById_update_other _ _ _ _ hpid, hp]

/-- Any sequence of calls keeps a stored post stored and keeps I1 and I2 on it. -/
theorem runCalls_preserves (calls : List Call) :
    ∀ (db : List Post) (pid : PostId) (p : Post), findById db pid = some p → Disjointness p →
      TallyConsistent p →
      ∃ q, findById (runCalls db calls) pid = some q ∧ Disjointness q ∧ TallyConsistent q := by
  induction calls with
  | nil =>
    intro db pid p hp hd ht
    exact ⟨p, hp, hd, ht⟩
  | cons c cs ih =>
    intro db pid p hp hd ht
    have step : ∃ q, findById (c.run db).db pid = some q ∧ Disjointness q ∧
        TallyConsistent q := by
      unfold Call.run
      cases c.dir
      · exact upVote_preserves c.env db c.args c.context pid p hp hd ht
      · exact downVote_preserves c.env db c.args c.context pid p hp hd ht
    obtain ⟨q, hq, hdq, htq⟩ := step
    exact ih (c.run db).db pid q hq hdq htq

theorem fresh_post_invariants {p : Post} (hu : p.upVoters = []) (hdn : p.downVoters = [])
    (hv : p.votes = 0) : Disjointness p ∧ TallyConsistent p := by
  refine ⟨⟨?_, ?_, ?_⟩, ?_⟩
  · rw [hu]; exact List.nodup_nil
  · rw [hdn]; exact List.nodup_nil
  · intro u h
    rw [hu] at h
    simp at h
  · unfold TallyConsistent
    rw [hu, hdn, hv]
    simp

/-! ## The closing steps: resolving and emitting -/

theorem populateAuthorOfPost_resolved {env : Env} {db : List Post} {ops : List StoreOp}
    {d : Option Post} {doc : PostDoc}
    (h : (populateAuthorOfPost env db ops d).outcome = .resolved doc) :
    env.faults.populate = Option.none ∧ d = some doc.post ∧
      doc = populateAuthor env.users doc.post ∧
      (populateAuthorOfPost env db ops d).emitted =
        if env.namespaceRegistered then [{ event := "update", payload := doc.toJSON }] else [] := by
  unfold populateAuthorOfPost at h ⊢
  split at h
  · cases h
  · rename_i q
    split at h
    · cases h
    · rename_i hpop
      simp only [respond, Outcome.resolved.injEq] at h
      subst h
      simp only [hpop]
      exact ⟨trivial, rfl, rfl, rfl⟩

theorem populateAndRespond_resolved {env : Env} {db : List Post} {ops : List StoreOp}
    {d : Option Post} {doc : PostDoc}
    (h : (populateAndRespond env db ops d).outcome = .resolved doc) :
    env.faults.populate = Option.none ∧ d = some doc.post ∧
      doc = populateAuthor env.users doc.post ∧
      (populateAndRespond env db ops d).emitted =
        if env.namespaceRegistered then [{ event := "update", payload := doc.toJSON }] else [] := by
  unfold populateAndRespond at h ⊢
  split at h
  · cases h
  · rename_i q
    split at h
    · cases h
    · rename_i hpop
      simp only [respond, Outcome.resolved.injEq] at h
      subst h
      simp only [hpop]
      exact ⟨trivial, rfl, rfl, rfl⟩

/-- The emitted messages of the tail steps: none unless resolved. -/
theorem populateAuthorOfPost_emitted (env : Env) (db : List Post) (ops : List StoreOp)
    (d : Option Post) :
    (∃ doc, (populateAuthorOfPost env db ops d).outcome = .resolved doc) ∨
      (populateAuthorOfPost env db ops d).emitted = [] := by
  unfold populateAuthorOfPost
  split
  · exact Or.inr rfl
  · split
    · exact Or.inr rfl
    · exact Or.inl ⟨_, rfl⟩

theorem populateAndRespond_emitted (env : Env) (db : List Post) (ops : List StoreOp)
    (d : Option Post) :
    (∃ doc, (populateAndRespond env db ops d).outcome = .resolved doc) ∨
      (populateAndRespond env db ops d).emitted = [] := by
  unfold populateAndRespond
  split
  · exact Or.inr rfl
  · split
    · exact Or.inr rfl
    · exact Or.inl ⟨_, rfl⟩

theorem addUserToUpVoters_resolved {env : Env} {db : List Post} {ops : List StoreOp}
    {postID : PostId} {user : User} {doc : PostDoc}
    (h : (addUserToUpVoters env db ops postID user).outcome = .resolved doc) :
    env.faults.add = Option.none ∧ env.faults.populate = Option.none ∧
      (findById db postID).map (Update.addToSet .upVoters user.id 1).apply = some doc.post ∧
      (addUserToUpVoters env db ops postID user).db =
        updateById db postID (Update.addToSet .upVoters user.id 1).apply ∧
      doc = populateAuthor env.users doc.post ∧
      (addUserToUpVoters env db ops postID user).emitted =
        if env.namespaceRegistered then [{ event := "update", payload := doc.toJSON }] else [] := by
  unfold addUserToUpVoters at h ⊢
  simp only [] at h ⊢
  split at h
  · cases h
  · rename_i hadd
    obtain ⟨h1, h2, h3, h4⟩ := populateAuthorOfPost_resolved h
    simp only [hadd]
    refine ⟨trivial, h1, h2, ?_, h3, h4⟩
    rw [populateAuthorOfPost_db]
    rfl

theorem addUserToUpVoters_emitted (env : Env) (db : List Post) (ops : List StoreOp)
    (postID : PostId) (user : User) :
    (∃ doc, (addUserToUpVoters env db ops postID user).outcome = .resolved doc) ∨
      (addUserToUpVoters env db ops postID user).emitted = [] := by
  unfold addUserToUpVoters
  simp only []
  split
  · exact Or.inr rfl
  · exact populateAuthorOfPost_emitted _ _ _ _

theorem addUserToDownVoters_resolved {env : Env} {db : List Post} {ops : List StoreOp}
    {user : User} {post : Option Post} {doc : PostDoc}
    (h : (addUserToDownVoters env db ops user post).outcome = .resolved doc) :
    ∃ p, post = some p ∧ env.faults.add = Option.none ∧ env.faults.populate = Option.none ∧
      (findById db p.id).map (Update.addToSet .downVoters user.id (-1)).apply = some doc.post ∧
      (addUserToDownVoters env db ops user post).db =
        updateById db p.id (Update.addToSet .downVoters user.id (-1)).apply ∧
      doc = populateAuthor env.users doc.post ∧
      (addUserToDownVoters env db ops user post).emitted =
        if env.namespaceRegistered then [{ event := "update", payload := doc.toJSON }] else [] := by
  unfold addUserToDownVoters at h ⊢
  split at h
  · cases h
  · rename_i p
    simp only [] at h ⊢
    split at h
    · cases h
    · rename_i hadd
      obtain ⟨h1, h2, h3, h4⟩ := populateAndRespond_resolved h
      simp only [hadd]
      refine ⟨p, rfl, trivial, h1, h2, ?_, h3, h4⟩
      rw [populateAndRespond_db]
      rfl

theorem addUserToDownVoters_emitted (env : Env) (db : List Post) (ops : List StoreOp)
    (user : User) (post : Option Post) :
    (∃ doc, (addUserToDownVoters env db ops user post).outcome = .resolved doc) ∨
      (addUserToDownVoters env db ops user post).emitted = [] := by
  unfold addUserToDownVoters
  split
  · exact Or.inr rfl
  · simp only []
    split
    · exact Or.inr rfl
    · exact populateAndRespond_emitted _ _ _ _

/-! ## The mutations along their successful paths -/

theorem hasRole_not_eq {context : Context} (h : ROLE_USER ∈ context.user.roles) :
    (!hasRole context ROLE_USER) = false := by
  rw [(hasRole_iff _ _).2 h]
  rfl

theorem upVote_noVote_eq {env : Env} {db : List Post} {args : VoteArgs} {context : Context}
    {p : Post} (hrole : ROLE_USER ∈ context.user.roles) (hfind : env.faults.find = Option.none)
    (hp : findById db args.postID = some p) (hup : context.user.id ∉ p.upVoters)
    (hdown : context.user.id ∉ p.downVoters) :
    upVote env db args context =
      addUserToUpVoters env db [.findById args.postID] args.postID context.user := by
  have h1 := indexOf_ne_iff p.upVoters context.user.id
  have h2 := indexOf_ne_iff p.downVoters context.user.id
  simp only [upVote, hasRole_not_eq hrole, hfind, hp, checkUserInIsUpVoters,
    removeUserFromDownVoters, h1, h2, hup, hdown, if_false, Bool.false_eq_true]

theorem upVote_switch_eq {env : Env} {db : List Post} {args : VoteArgs} {context : Context}
    {p : Post} (hrole : ROLE_USER ∈ context.user.roles) (hfind : env.faults.find = Option.none)
    (hpull : env.faults.pull = Option.none)
    (hp : findById db args.postID = some p) (hup : context.user.id ∉ p.upVoters)
    (hdown : context.user.id ∈ p.downVoters) :
    upVote env db args context =
      addUserToUpVoters env
        (updateById db args.postID (Update.pull .downVoters context.user.id 1).apply)
        [.findById args.postID,
          .findByIdAndUpdate args.postID (Update.pull .downVoters context.user.id 1)]
        args.postID context.user := by
  have h1 := indexOf_ne_iff p.upVoters context.user.id
  have h2 := indexOf_ne_iff p.downVoters context.user.id
  simp only [upVote, hasRole_not_eq hrole, hfind, hp, checkUserInIsUpVoters,
    removeUserFromDownVoters, h1, h2, hup, hdown, if_false, if_true, Bool.false_eq_true, hpull,
    findByIdAndUpdate, List.singleton_append]

theorem downVote_switch_eq {env : Env} {db : List Post} {args : VoteArgs} {context : Context}
    {p : Post} (hrole : ROLE_USER ∈ context.user.roles) (hfind : env.faults.find = Option.none)
    (hpull : env.faults.pull = Option.none)
    (hp : findById db args.postID = some p) (hdown : context.user.id ∉ p.downVoters)
    (hup : context.user.id ∈ p.upVoters) :
    downVote env db args context =
      addUserToDownVoters env
        (updateById db args.postID (Update.pull .upVoters context.user.id (-1)).apply)
        [.findById args.postID,
          .findByIdAndUpdate args.postID (Update.pull .upVoters context.user.id (-1))]
        context.user (some ((Update.pull .upVoters context.user.id (-1)).apply p)) := by
  have h1 := indexOf_ne_iff p.upVoters context.user.id
  have h2 := indexOf_ne_iff p.downVoters context.user.id
  have hid : p.id = args.postID := findById_id hp
  simp only [downVote, hasRole_not_eq hrole, hfind, hp, checkUserIsOnDownVoters,
    removeUserFromUpVoters, h1, h2, hup, hdown, if_false, if_true, Bool.false_eq_true, hpull,
    findByIdAndUpdate, List.singleton_append, hid, Option.map_some']

/-- With the user on neither list, `downVote` hands nothing to its step "Add
user to downVoters", which raises on `post.id`: the call is rejected with a
type error after the one lookup, and nothing is written or emitted. -/
theorem downVote_noVote_eq {env : Env} {db : List Post} {args : VoteArgs} {context : Context}
    {p : Post} (hrole : ROLE_USER ∈ context.user.roles) (hfind : env.faults.find = Option.none)
    (hp : findById db args.postID = some p) (hdown : context.user.id ∉ p.downVoters)
    (hup : context.user.id ∉ p.upVoters) :
    downVote env db args context =
      { outcome := .rejected .typeError, db := db, ops := [.findById args.postID],
        emitted := [] } := by
  have h1 := indexOf_ne_iff p.upVoters context.user.id
  have h2 := indexOf_ne_iff p.downVoters context.user.id
  simp only [downVote, hasRole_not_eq hrole, hfind, hp, checkUserIsOnDownVoters,
    removeUserFromUpVoters, h1, h2, hup, hdown, if_false, Bool.false_eq_true,
    addUserToDownVoters]

theorem addUserToUpVoters_ok {env : Env} {db : List Post} {ops : List StoreOp}
    {postID : PostId} {user : User} {q : Post} (hadd : env.faults.add = Option.none)
    (hpop : env.faults.populate = Option.none) (hq : findById db postID = some q) :
    addUserToUpVoters env db ops postID user =
      respond env (updateById db postID (Update.addToSet .upVoters user.id 1).apply)
        (ops ++ [.findByIdAndUpdate postID (Update.addToSet .upVoters user.id 1)] ++
          [.populate q.author])
        (populateAuthor env.users ((Update.addToSet .upVoters user.id 1).apply q)) := by
  simp only [addUserToUpVoters, hadd, findByIdAndUpdate, hq, Option.map_some',
    populateAuthorOfPost, hpop]
  rfl

theorem addUserToDownVoters_ok {env : Env} {db : List Post} {ops : List StoreOp}
    {user : User} {p q : Post} (hadd : env.faults.add = Option.none)
    (hpop : env.faults.populate = Option.none) (hq : findById db p.id = some q) :
    addUserToDownVoters env db ops user (some p) =
      respond env (updateById db p.id (Update.addToSet .downVoters user.id (-1)).apply)
        (ops ++ [.findByIdAndUpdate p.id (Update.addToSet .downVoters user.id (-1))] ++
          [.populate q.author])
        (populateAuthor env.users ((Update.addToSet .downVoters user.id (-1)).apply q)) := by
  simp only [addUserToDownVoters, hadd, findByIdAndUpdate, hq, Option.map_some',
    populateAndRespond, hpop]
  rfl

/-! ## When a mutation resolves -/

theorem upVote_resolved_cond {env : Env} {db : List Post} {args : VoteArgs} {context : Context}
    {doc : PostDoc} (h : (upVote env db args context).outcome = .resolved doc) :
    ROLE_USER ∈ context.user.roles ∧ env.faults.find = Option.none ∧
      env.faults.add = Option.none ∧ env.faults.populate = Option.none ∧
      ∃ p, findById db args.postID = some p ∧ context.user.id ∉ p.upVoters ∧
        (context.user.id ∈ p.downVoters → env.faults.pull = Option.none) := by
  unfold upVote at h
  simp only [] at h
  split at h
  · cases h
  · rename_i hrole
    have hrole2 : ROLE_USER ∈ context.user.roles := by
      rw [← hasRole_iff]
      simpa using hrole
    split at h
    · cases h
    · rename_i hfind
      unfold checkUserInIsUpVoters at h
      split at h
      · cases h
      · rename_i p hp
        split at h
        · cases h
        · rename_i hup
          rw [indexOf_ne_iff] at hup
          unfold removeUserFromDownVoters at h
          split at h
          · simp only [] at h
            split at h
            · cases h
            · rename_i hpull
              obtain ⟨h1, h2, _⟩ := addUserToUpVoters_resolved h
              exact ⟨hrole2, hfind, h1, h2, p, hp, hup, fun _ => hpull⟩
          · rename_i hdown
            rw [indexOf_ne_iff] at hdown
            obtain ⟨h1, h2, _⟩ := addUserToUpVoters_resolved h
            exact ⟨hrole2, hfind, h1, h2, p, hp, hup, fun hm => absurd hm hdown⟩

theorem downVote_resolved_cond {env : Env} {db : List Post} {args : VoteArgs}
    {context : Context} {doc : PostDoc}
    (h : (downVote env db args context).outcome = .resolved doc) :
    ROLE_USER ∈ context.user.roles ∧ env.faults.find = Option.none ∧
      env.faults.pull = Option.none ∧
      env.faults.add = Option.none ∧ env.faults.populate = Option.none ∧
      ∃ p, findById db args.postID = some p ∧ context.user.id ∉ p.downVoters ∧
        context.user.id ∈ p.upVoters := by
  unfold downVote at h
  simp only [] at h
  split at h
  · cases h
  · rename_i hrole
    have hrole2 : ROLE_USER ∈ context.user.roles := by
      rw [← hasRole_iff]
      simpa using hrole
    split at h
    · cases h
    · rename_i hfind
      unfold checkUserIsOnDownVoters at h
      split at h
      · cases h
      · rename_i p hp
        split at h
        · cases h
        · rename_i hdown
          rw [indexOf_ne_iff] at hdown
          unfold removeUserFromUpVoters at h
          split at h
          · rename_i hup
            rw [indexOf_ne_iff] at hup
            simp only [] at h
            split at h
            · cases h
            · rename_i hpull
              obtain ⟨_, _, h1, h2, _⟩ := addUserToDownVoters_resolved h
              exact ⟨hrole2, hfind, hpull, h1, h2, p, hp, hdown, hup⟩
          · unfold addUserToDownVoters at h
            cases h

/-- The value of a successful `upVote`, in full. The stored post `q` is the
post found, after the pull when the user was a down-voter. -/
theorem upVote_ok {env : Env} {db : List Post} {args : VoteArgs} {context : Context} {p : Post}
    (hrole : ROLE_USER ∈ context.user.roles) (hfind : env.faults.find = Option.none)
    (hadd : env.faults.add = Option.none) (hpop : env.faults.populate = Option.none)
    (hp : findById db args.postID = some p) (hup : context.user.id ∉ p.upVoters)
    (hpull : context.user.id ∈ p.downVoters → env.faults.pull = Option.none) :
    ∃ q ops, (q = p ∨ (context.user.id ∈ p.downVoters ∧
        q = (Update.pull .downVoters context.user.id 1).apply p)) ∧
      context.user.id ∉ q.downVoters ∧
      (upVote env db args context).outcome = .resolved
        (populateAuthor env.users ((Update.addToSet .upVoters context.user.id 1).apply q)) ∧
      findById (upVote env db args context).db args.postID =
        some ((Update.addToSet .upVoters context.user.id 1).apply q) ∧
      (upVote env db args context).ops = ops ∧
      (upVote env db args context).emitted =
        if env.namespaceRegistered then
          [{ event := "update", payload := (populateAuthor env.users
              ((Update.addToSet .upVoters context.user.id 1).apply q)).toJSON }]
        else [] := by
  by_cases hdown : context.user.id ∈ p.downVoters
  · have hq : findById
        (updateById db args.postID (Update.pull .downVoters context.user.id 1).apply)
        args.postID = some ((Update.pull .downVoters context.user.id 1).apply p) := by
      rw [findById_update_same, hp]
      rfl
    rw [upVote_switch_eq hrole hfind (hpull hdown) hp hup hdown, addUserToUpVoters_ok hadd hpop hq]
    refine ⟨_, _, Or.inr ⟨hdown, rfl⟩, ?_, rfl, ?_, rfl, rfl⟩
    · intro hm
      exact ((mem_pull _ _ _).1 hm).2 rfl
    · rw [respond_db, findById_update_same, hq]
      rfl
  · rw [upVote_noVote_eq hrole hfind hp hup hdown, addUserToUpVoters_ok hadd hpop hp]
    refine ⟨_, _, Or.inl rfl, hdown, rfl, ?_, rfl, rfl⟩
    rw [respond_db, findById_update_same, hp]
    rfl

/-- The value of a successful `downVote`, in full: only a voter on `upVoters`
gets there. -/
theorem downVote_ok {env : Env} {db : List Post} {args : VoteArgs} {context : Context}
    {p : Post}
    (hrole : ROLE_USER ∈ context.user.roles) (hfind : env.faults.find = Option.none)
    (hpull : env.faults.pull = Option.none)
    (hadd : env.faults.add = Option.none) (hpop : env.faults.populate = Option.none)
    (hp : findById db args.postID = some p) (hdown : context.user.id ∉ p.downVoters)
    (hup : context.user.id ∈ p.upVoters) :
    ∃ ops, (downVote env db args context).outcome = .resolved
        (populateAuthor env.users ((Update.addToSet .downVoters context.user.id (-1)).apply
          ((Update.pull .upVoters context.user.id (-1)).apply p))) ∧
      findById (downVote env db args context).db args.postID =
        some ((Update.addToSet .downVoters context.user.id (-1)).apply
          ((Update.pull .upVoters context.user.id (-1)).apply p)) ∧
      (downVote env db args context).ops = ops ∧
      (downVote env db args context).emitted =
        if env.namespaceRegistered then
          [{ event := "update", payload := (populateAuthor env.users
              ((Update.addToSet .downVoters context.user.id (-1)).apply
                ((Update.pull .upVoters context.user.id (-1)).apply p))).toJSON }]
        else [] := by
  have hid : ((Update.pull .upVoters context.user.id (-1)).apply p).id = args.postID := by
    rw [Update.apply_id]
    exact findById_id hp
  have hq : findById
      (updateById db args.postID (Update.pull .upVoters context.user.id (-1)).apply)
      ((Update.pull .upVoters context.user.id (-1)).apply p).id =
        some ((Update.pull .upVoters context.user.id (-1)).apply p) := by
    rw [hid, findById_update_same, hp]
    rfl
  rw [downVote_switch_eq hrole hfind hpull hp hdown hup, addUserToDownVoters_ok hadd hpop hq]
  refine ⟨_, rfl, ?_, rfl, rfl⟩
  rw [respond_db, hid, findById_update_same, findById_update_same, hp]
  rfl

/-! ## Invariants over runs (I1, I2) -/

/-- C1, tally consistency (I2): from a stored post with no up-voters, no
down-voters and `votes = 0`, after any finite sequence of `upVote` and
`downVote` calls run one at a time against the collection (by any callers, on
any post ids, each call resolving or failing, store failures included), the
post is still stored and its `votes` equals the number of up-voters minus the
number of down-voters. -/
theorem tally_consistent_after_calls (db : List Post) (pid : PostId) (p : Post)
    (calls : List Call)
    (hp : findById db pid = some p) (hu : p.upVoters = []) (hdn : p.downVoters = [])
    (hv : p.votes = 0) :
    ∃ q, findById (runCalls db calls) pid = some q ∧
      q.votes = (q.upVoters.length : Int) - (q.downVoters.length : Int) := by
  obtain ⟨hd, ht⟩ := fresh_post_invariants hu hdn hv
  obtain ⟨q, hq, _, htq⟩ := runCalls_preserves calls db pid p hp hd ht
  exact ⟨q, hq, htq⟩

theorem tally_consistent_after_calls_witness :
    findById [freshPost] 10 = some freshPost ∧ freshPost.upVoters = [] ∧
      freshPost.downVoters = [] ∧ freshPost.votes = 0 ∧
      ∃ q, findById (runCalls [freshPost] sampleCalls) 10 = some q ∧
        q.votes = (q.upVoters.length : Int) - (q.downVoters.length : Int) :=
  ⟨by decide, rfl, rfl, rfl,
    tally_consistent_after_calls [freshPost] 10 freshPost sampleCalls (by decide) rfl rfl rfl⟩

/-- C2, disjointness (I1): from a stored post with no up-voters, no
down-voters and `votes = 0`, after any finite sequence of `upVote` and
`downVote` calls run one at a time against the collection, no user id is on
both voter lists of the stored post and neither list holds an id twice. -/
theorem voters_disjoint_after_calls (db : List Post) (pid : PostId) (p : Post)
    (calls : List Call)
    (hp : findById db pid = some p) (hu : p.upVoters = []) (hdn : p.downVoters = [])
    (hv : p.votes = 0) :
    ∃ q, findById (runCalls db calls) pid = some q ∧
      (∀ u, ¬ (u ∈ q.upVoters ∧ u ∈ q.downVoters)) ∧ q.upVoters.Nodup ∧ q.downVoters.Nodup := by
  obtain ⟨hd, ht⟩ := fresh_post_invariants hu hdn hv
  obtain ⟨q, hq, hdq, _⟩ := runCalls_preserves calls db pid p hp hd ht
  exact ⟨q, hq, hdq.2.2, hdq.1, hdq.2.1⟩

theorem voters_disjoint_after_calls_witness :
    findById [freshPost] 10 = some freshPost ∧ freshPost.upVoters = [] ∧
      freshPost.downVoters = [] ∧ freshPost.votes = 0 ∧
      ∃ q, findById (runCalls [freshPost] sampleCalls) 10 = some q ∧
        (∀ u, ¬ (u ∈ q.upVoters ∧ u ∈ q.downVoters)) ∧ q.upVoters.Nodup ∧
        q.downVoters.Nodup :=
  ⟨by decide, rfl, rfl, rfl,
    voters_disjoint_after_calls [freshPost] 10 freshPost sampleCalls (by decide) rfl rfl rfl⟩

/-! ## Single calls -/

/-- C3, `downVote` from NoVote, evaluated: `U1`, who holds the user role and
is on neither list of the stored post `P`, down-votes `P` with a working
store. The call is rejected with a type error after the lookup alone; `P` is
left without voters at `votes = 0`, and nothing is emitted. The claim asks for
success with `U1` added to `downVoters` and `votes = -1`. -/
theorem downVote_from_noVote_rejected :
    downVote liveEnv [freshPost] { postID := 10 } { user := U1 } =
      { outcome := .rejected .typeError, db := [freshPost], ops := [.findById 10],
        emitted := [] } := by
  decide

/-- C4, `upVote` from NoVote: for a stored post and a caller with the user
role who is on neither voter list, when no store call fails, `upVote`
resolves; the resolved document is the stored post, whose `upVoters` is the
old list with the caller appended, `downVoters` is unchanged, `votes` is one
more than before, and every other user is on exactly the lists they were on. -/
theorem upVote_from_noVote (env : Env) (db : List Post) (args : VoteArgs) (context : Context)
    (p : Post) (hrole : ROLE_USER ∈ context.user.roles)
    (hfind : env.faults.find = Option.none) (hadd : env.faults.add = Option.none)
    (hpop : env.faults.populate = Option.none)
    (hp : findById db args.postID = some p) (hup : context.user.id ∉ p.upVoters)
    (hdown : context.user.id ∉ p.downVoters) :
    ∃ doc, (upVote env db args context).outcome = .resolved doc ∧
      findById (upVote env db args context).db args.postID = some doc.post ∧
      context.user.id ∈ doc.post.upVoters ∧
      doc.post.upVoters = p.upVoters ++ [context.user.id] ∧
      doc.post.downVoters = p.downVoters ∧
      doc.post.votes = p.votes + 1 ∧
      ∀ v, v ≠ context.user.id →
        (v ∈ doc.post.upVoters ↔ v ∈ p.upVoters) ∧
        (v ∈ doc.post.downVoters ↔ v ∈ p.downVoters) := by
  obtain ⟨q, _, hq, _, hout, hst, _, _⟩ :=
    upVote_ok hrole hfind hadd hpop hp hup (fun h => absurd h hdown)
  have hqp : q = p := by
    rcases hq with h | ⟨h, _⟩
    · exact h
    · exact absurd h hdown
  subst hqp
  refine ⟨_, hout, hst, ?_, ?_, rfl, rfl, ?_⟩
  · exact (mem_addToSet _ _ _).2 (Or.inr rfl)
  · show addToSet q.upVoters context.user.id = _
    simp [addToSet, hup]
  · intro v hv
    refine ⟨?_, Iff.rfl⟩
    show v ∈ addToSet q.upVoters context.user.id ↔ _
    rw [mem_addToSet]
    exact ⟨fun h => h.resolve_right hv, Or.inl⟩

theorem upVote_from_noVote_witness :
    (ROLE_USER ∈ U1.roles ∧ findById [freshPost] 10 = some freshPost ∧
      U1.id ∉ freshPost.upVoters ∧ U1.id ∉ freshPost.downVoters) ∧
    ∃ doc, (upVote liveEnv [freshPost] { postID := 10 } { user := U1 }).outcome = .resolved doc ∧
      findById (upVote liveEnv [freshPost] { postID := 10 } { user := U1 }).db 10 =
        some doc.post ∧
      1 ∈ doc.post.upVoters ∧
      doc.post.upVoters = [] ++ [1] ∧
      doc.post.downVoters = [] ∧
      doc.post.votes = 0 + 1 ∧
      ∀ v, v ≠ 1 →
        (v ∈ doc.post.upVoters ↔ v ∈ ([] : List UserId)) ∧
        (v ∈ doc.post.downVoters ↔ v ∈ ([] : List UserId)) :=
  ⟨by decide,
    upVote_from_noVote liveEnv [freshPost] { postID := 10 } { user := U1 } freshPost
      (by decide) rfl rfl rfl (by decide) (by decide) (by decide)⟩

/-- Scenario A, evaluated: `U1` up-votes the fresh post. -/
theorem scenario_A :
    (upVote liveEnv [freshPost] { postID := 10 } { user := U1 }).db = [upVotedPost] ∧
    (upVote liveEnv [freshPost] { postID := 10 } { user := U1 }).outcome =
      .resolved (populateAuthor liveEnv.users upVotedPost) := by
  decide

/-- Scenario B, evaluated: `U1` then down-votes. -/
theorem scenario_B :
    (downVote liveEnv [upVotedPost] { postID := 10 } { user := U1 }).db = [downVotedPost] ∧
    (downVote liveEnv [upVotedPost] { postID := 10 } { user := U1 }).outcome =
      .resolved (populateAuthor liveEnv.users downVotedPost) := by
  decide

/-- C5, switch semantics: with a caller holding the user role and no store
call failing, for a stored post whose voter lists are duplicate-free and
disjoint: if the caller is a down-voter, `upVote` resolves with the stored
post, in which the caller is an up-voter and no longer a down-voter, `votes`
is 2 more than before and every other user is on exactly the lists they were
on; if the caller is an up-voter, `downVote` resolves likewise with the
caller on `downVoters` only and `votes` 2 less than before. -/
theorem switch_semantics (env : Env) (db : List Post) (args : VoteArgs) (context : Context)
    (hrole : ROLE_USER ∈ context.user.roles)
    (hfind : env.faults.find = Option.none) (hpull : env.faults.pull = Option.none)
    (hadd : env.faults.add = Option.none) (hpop : env.faults.populate = Option.none) :
    (∀ p, findById db args.postID = some p → Disjointness p →
      context.user.id ∈ p.downVoters →
      ∃ doc, (upVote env db args context).outcome = .resolved doc ∧
        findById (upVote env db args context).db args.postID = some doc.post ∧
        context.user.id ∈ doc.post.upVoters ∧ context.user.id ∉ doc.post.downVoters ∧
        doc.post.votes = p.votes + 2 ∧
        ∀ v, v ≠ context.user.id →
          (v ∈ doc.post.upVoters ↔ v ∈ p.upVoters) ∧
          (v ∈ doc.post.downVoters ↔ v ∈ p.downVoters)) ∧
    (∀ p, findById db args.postID = some p → Disjointness p →
      context.user.id ∈ p.upVoters →
      ∃ doc, (downVote env db args context).outcome = .resolved doc ∧
        findById (downVote env db args context).db args.postID = some doc.post ∧
        context.user.id ∈ doc.post.downVoters ∧ context.user.id ∉ doc.post.upVoters ∧
        doc.post.votes = p.votes - 2 ∧
        ∀ v, v ≠ context.user.id →
          (v ∈ doc.post.upVoters ↔ v ∈ p.upVoters) ∧
          (v ∈ doc.post.downVoters ↔ v ∈ p.downVoters)) := by
  constructor
  · intro p hp hd hdown
    have hup : context.user.id ∉ p.upVoters := fun h => hd.2.2 _ ⟨h, hdown⟩
    obtain ⟨q, _, hq, hnq, hout, hst, _, _⟩ :=
      upVote_ok hrole hfind hadd hpop hp hup (fun _ => hpull)
    have hqp : q = (Update.pull .downVoters context.user.id 1).apply p := by
      rcases hq with h | ⟨_, h⟩
      · exact absurd (h ▸ hdown) hnq
      · exact h
    subst hqp
    refine ⟨_, hout, hst, (mem_addToSet _ _ _).2 (Or.inr rfl), ?_, ?_, ?_⟩
    · intro hm
      exact ((mem_pull _ _ _).1 hm).2 rfl
    · show p.votes + 1 + 1 = p.votes + 2
      omega
    · intro v hv
      constructor
      · show v ∈ addToSet p.upVoters context.user.id ↔ _
        rw [mem_addToSet]
        exact ⟨fun h => h.resolve_right hv, Or.inl⟩
      · show v ∈ pull p.downVoters context.user.id ↔ _
        rw [mem_pull]
        exact ⟨fun h => h.1, fun h => ⟨h, hv⟩⟩
  · intro p hp hd hup
    have hdown : context.user.id ∉ p.downVoters := fun h => hd.2.2 _ ⟨hup, h⟩
    obtain ⟨_, hout, hst, _, _⟩ := downVote_ok hrole hfind hpull hadd hpop hp hdown hup
    refine ⟨_, hout, hst, (mem_addToSet _ _ _).2 (Or.inr rfl), ?_, ?_, ?_⟩
    · intro hm
      exact ((mem_pull _ _ _).1 hm).2 rfl
    · show p.votes + -1 + -1 = p.votes - 2
      omega
    · intro v hv
      constructor
      · show v ∈ pull p.upVoters context.user.id ↔ _
        rw [mem_pull]
        exact ⟨fun h => h.1, fun h => ⟨h, hv⟩⟩
      · show v ∈ addToSet p.downVoters context.user.id ↔ _
        rw [mem_addToSet]
        exact ⟨fun h => h.resolve_right hv, Or.inl⟩

theorem disjointness_upVotedPost : Disjointness upVotedPost := by
  refine ⟨?_, ?_, ?_⟩
  · decide
  · decide
  · intro u h
    exact absurd h.2 (by simp [upVotedPost])

theorem disjointness_downVotedPost : Disjointness downVotedPost := by
  refine ⟨?_, ?_, ?_⟩
  · decide
  · decide
  · intro u h
    exact absurd h.1 (by simp [downVotedPost])

theorem switch_semantics_witness :
    (ROLE_USER ∈ U1.roles ∧ findById [upVotedPost] 10 = some upVotedPost ∧
      Disjointness upVotedPost ∧ U1.id ∈ upVotedPost.upVoters ∧
      findById [downVotedPost] 10 = some downVotedPost ∧
      Disjointness downVotedPost ∧ U1.id ∈ downVotedPost.downVoters) ∧
    (∃ doc, (downVote liveEnv [upVotedPost] { postID := 10 } { user := U1 }).outcome =
        .resolved doc ∧
      findById (downVote liveEnv [upVotedPost] { postID := 10 } { user := U1 }).db 10 =
        some doc.post ∧
      1 ∈ doc.post.downVoters ∧ 1 ∉ doc.post.upVoters ∧ doc.post.votes = 1 - 2 ∧
      ∀ v, v ≠ 1 →
        (v ∈ doc.post.upVoters ↔ v ∈ upVotedPost.upVoters) ∧
        (v ∈ doc.post.downVoters ↔ v ∈ upVotedPost.downVoters)) ∧
    (∃ doc, (upVote liveEnv [downVotedPost] { postID := 10 } { user := U1 }).outcome =
        .resolved doc ∧
      findById (upVote liveEnv [downVotedPost] { postID := 10 } { user := U1 }).db 10 =
        some doc.post ∧
      1 ∈ doc.post.upVoters ∧ 1 ∉ doc.post.downVoters ∧ doc.post.votes = -1 + 2 ∧
      ∀ v, v ≠ 1 →
        (v ∈ doc.post.upVoters ↔ v ∈ downVotedPost.upVoters) ∧
        (v ∈ doc.post.downVoters ↔ v ∈ downVotedPost.downVoters)) :=
  ⟨⟨by decide, by decide, disjointness_upVotedPost, by decide, by decide,
      disjointness_downVotedPost, by decide⟩,
    (switch_semantics liveEnv [upVotedPost] { postID := 10 } { user := U1 }
      (by decide) rfl rfl rfl rfl).2 upVotedPost (by decide) disjointness_upVotedPost
      (by decide),
    (switch_semantics liveEnv [downVotedPost] { postID := 10 } { user := U1 }
      (by decide) rfl rfl rfl rfl).1 downVotedPost (by decide) disjointness_downVotedPost
      (by decide)⟩

/-! ## Rejections -/

theorem upVote_alreadyVoted_eq {env : Env} {db : List Post} {args : VoteArgs}
    {context : Context} {p : Post} (hrole : ROLE_USER ∈ context.user.roles)
    (hfind : env.faults.find = Option.none) (hp : findById db args.postID = some p)
    (hup : context.user.id ∈ p.upVoters) :
    upVote env db args context =
      { outcome := .rejected (.str alreadyVoted), db := db, ops := [.findById args.postID],
        emitted := [] } := by
  have h1 := indexOf_ne_iff p.upVoters context.user.id
  simp only [upVote, hasRole_not_eq hrole, hfind, hp, checkUserInIsUpVoters, h1, hup, if_true,
    if_false, Bool.false_eq_true]

theorem downVote_alreadyVoted_eq {env : Env} {db : List Post} {args : VoteArgs}
    {context : Context} {p : Post} (hrole : ROLE_USER ∈ context.user.roles)
    (hfind : env.faults.find = Option.none) (hp : findById db args.postID = some p)
    (hdown : context.user.id ∈ p.downVoters) :
    downVote env db args context =
      { outcome := .rejected (.error alreadyVoted), db := db, ops := [.findById args.postID],
        emitted := [] } := by
  have h1 := indexOf_ne_iff p.downVoters context.user.id
  simp only [downVote, hasRole_not_eq hrole, hfind, hp, checkUserIsOnDownVoters, h1, hdown,
    if_true, if_false, Bool.false_eq_true]

/-- C6, idempotent rejection: for a caller with the user role and a lookup
that does not fail: if the caller is on `upVoters` of the stored post,
`upVote` is rejected with "You have already voted this post!", having issued
the lookup only, with the collection unchanged and nothing emitted; the same
for `downVote` and `downVoters` (there the message comes in an `Error`). In
particular the same vote cast again right after it was accepted is rejected
and leaves the collection as the first call left it. -/
theorem idempotent_rejection (env : Env) (db : List Post) (args : VoteArgs) (context : Context)
    (hrole : ROLE_USER ∈ context.user.roles) (hfind : env.faults.find = Option.none) :
    (∀ p, findById db args.postID = some p → context.user.id ∈ p.upVoters →
      upVote env db args context =
        { outcome := .rejected (.str alreadyVoted), db := db, ops := [.findById args.postID],
          emitted := [] }) ∧
    (∀ p, findById db args.postID = some p → context.user.id ∈ p.downVoters →
      downVote env db args context =
        { outcome := .rejected (.error alreadyVoted), db := db, ops := [.findById args.postID],
          emitted := [] }) ∧
    (∀ env0 db0 doc, (upVote env0 db0 args context).outcome = .resolved doc →
      db = (upVote env0 db0 args context).db →
      upVote env db args context =
        { outcome := .rejected (.str alreadyVoted), db := db, ops := [.findById args.postID],
          emitted := [] }) ∧
    (∀ env0 db0 doc, (downVote env0 db0 args context).outcome = .resolved doc →
      db = (downVote env0 db0 args context).db →
      downVote env db args context =
        { outcome := .rejected (.error alreadyVoted), db := db, ops := [.findById args.postID],
          emitted := [] }) := by
  refine ⟨?_, ?_, ?_, ?_⟩
  · intro p hp hup
    exact upVote_alreadyVoted_eq hrole hfind hp hup
  · intro p hp hdown
    exact downVote_alreadyVoted_eq hrole hfind hp hdown
  · intro env0 db0 doc hres hdb
    obtain ⟨_, hf0, ha0, hp0, p, hp, hup, hpl⟩ := upVote_resolved_cond hres
    obtain ⟨q, _, _, _, _, hst, _, _⟩ := upVote_ok hrole hf0 ha0 hp0 hp hup hpl
    rw [← hdb] at hst
    exact upVote_alreadyVoted_eq hrole hfind hst ((mem_addToSet _ _ _).2 (Or.inr rfl))
  · intro env0 db0 doc hres hdb
    obtain ⟨_, hf0, hl0, ha0, hp0, p, hp, hdown, hup⟩ := downVote_resolved_cond hres
    obtain ⟨_, _, hst, _, _⟩ := downVote_ok hrole hf0 hl0 ha0 hp0 hp hdown hup
    rw [← hdb] at hst
    exact downVote_alreadyVoted_eq hrole hfind hst ((mem_addToSet _ _ _).2 (Or.inr rfl))

theorem idempotent_rejection_witness :
    (ROLE_USER ∈ U1.roles ∧ liveEnv.faults.find = Option.none ∧
      findById [upVotedPost] 10 = some upVotedPost ∧ U1.id ∈ upVotedPost.upVoters ∧
      findById [downVotedPost] 10 = some downVotedPost ∧ U1.id ∈ downVotedPost.downVoters ∧
      (upVote liveEnv [freshPost] { postID := 10 } { user := U1 }).outcome =
        .resolved (populateAuthor liveEnv.users upVotedPost) ∧
      [upVotedPost] = (upVote liveEnv [freshPost] { postID := 10 } { user := U1 }).db ∧
      (downVote liveEnv [upVotedPost] { postID := 10 } { user := U1 }).outcome =
        .resolved (populateAuthor liveEnv.users downVotedPost) ∧
      [downVotedPost] = (downVote liveEnv [upVotedPost] { postID := 10 } { user := U1 }).db) ∧
    upVote liveEnv [upVotedPost] { postID := 10 } { user := U1 } =
      { outcome := .rejected (.str alreadyVoted), db := [upVotedPost], ops := [.findById 10],
        emitted := [] } ∧
    downVote liveEnv [downVotedPost] { postID := 10 } { user := U1 } =
      { outcome := .rejected (.error alreadyVoted), db := [downVotedPost],
        ops := [.findById 10], emitted := [] } ∧
    upVote liveEnv [upVotedPost] { postID := 10 } { user := U1 } =
      { outcome := .rejected (.str alreadyVoted), db := [upVotedPost], ops := [.findById 10],
        emitted := [] } ∧
    downVote liveEnv [downVotedPost] { postID := 10 } { user := U1 } =
      { outcome := .rejected (.error alreadyVoted), db := [downVotedPost],
        ops := [.findById 10], emitted := [] } :=
  ⟨by decide,
    (idempotent_rejection liveEnv [upVotedPost] { postID := 10 } { user := U1 }
      (by decide) rfl).1 upVotedPost (by decide) (by decide),
    (idempotent_rejection liveEnv [downVotedPost] { postID := 10 } { user := U1 }
      (by decide) rfl).2.1 downVotedPost (by decide) (by decide),
    (idempotent_rejection liveEnv [upVotedPost] { postID := 10 } { user := U1 }
      (by decide) rfl).2.2.1 liveEnv [freshPost]
      (populateAuthor liveEnv.users upVotedPost) (by decide) (by decide),
    (idempotent_rejection liveEnv [downVotedPost] { postID := 10 } { user := U1 }
      (by decide) rfl).2.2.2 liveEnv [upVotedPost]
      (populateAuthor liveEnv.users downVotedPost) (by decide) (by decide)⟩

theorem upVote_unknown_post_eq {env : Env} {db : List Post} {args : VoteArgs}
    {context : Context} (hrole : ROLE_USER ∈ context.user.roles)
    (hfind : env.faults.find = Option.none) (hp : findById db args.postID = Option.none) :
    upVote env db args context =
      { outcome := .uncaught .typeError, db := db, ops := [.findById args.postID],
        emitted := [] } := by
  simp only [upVote, hasRole_not_eq hrole, hfind, hp, checkUserInIsUpVoters, if_false,
    Bool.false_eq_true]

theorem downVote_unknown_post_eq {env : Env} {db : List Post} {args : VoteArgs}
    {context : Context} (hrole : ROLE_USER ∈ context.user.roles)
    (hfind : env.faults.find = Option.none) (hp : findById db args.postID = Option.none) :
    downVote env db args context =
      { outcome := .rejected .typeError, db := db, ops := [.findById args.postID],
        emitted := [] } := by
  simp only [downVote, hasRole_not_eq hrole, hfind, hp, checkUserIsOnDownVoters, if_false,
    Bool.false_eq_true]

/-- C7, unknown post, evaluated: `U1`, who holds the user role, votes on post
id 11 while the collection holds post 10 only. `upVote` raises a type error
inside its waterfall task, so its promise is neither resolved nor rejected;
`downVote` is rejected with a type error. Either way the lookup is the only
store call, the collection is unchanged and nothing is emitted. No outcome is
a not-found failure handed to the caller, which is what the claim asks of
both. -/
theorem vote_on_unknown_post :
    findById [freshPost] 11 = Option.none ∧
    upVote liveEnv [freshPost] { postID := 11 } { user := U1 } =
      { outcome := .uncaught .typeError, db := [freshPost], ops := [.findById 11],
        emitted := [] } ∧
    downVote liveEnv [freshPost] { postID := 11 } { user := U1 } =
      { outcome := .rejected .typeError, db := [freshPost], ops := [.findById 11],
        emitted := [] } := by
  decide

/-! ## The namespace registration only matters to the emission -/

theorem populateAuthorOfPost_withNamespace (env : Env) (b : Bool) (db : List Post)
    (ops : List StoreOp) (d : Option Post) :
    (populateAuthorOfPost (env.withNamespace b) db ops d).outcome =
        (populateAuthorOfPost env db ops d).outcome ∧
      (populateAuthorOfPost (env.withNamespace b) db ops d).db =
        (populateAuthorOfPost env db ops d).db := by
  cases d with
  | none => exact ⟨rfl, rfl⟩
  | some q =>
    cases hpop : env.faults.populate with
    | none => simp [populateAuthorOfPost, Env.withNamespace, hpop, respond]
    | some e => simp [populateAuthorOfPost, Env.withNamespace, hpop]

theorem populateAndRespond_withNamespace (env : Env) (b : Bool) (db : List Post)
    (ops : List StoreOp) (d : Option Post) :
    (populateAndRespond (env.withNamespace b) db ops d).outcome =
        (populateAndRespond env db ops d).outcome ∧
      (populateAndRespond (env.withNamespace b) db ops d).db =
        (populateAndRespond env db ops d).db := by
  cases d with
  | none => exact ⟨rfl, rfl⟩
  | some q =>
    cases hpop : env.faults.populate with
    | none => simp [populateAndRespond, Env.withNamespace, hpop, respond]
    | some e => simp [populateAndRespond, Env.withNamespace, hpop]

theorem addUserToUpVoters_withNamespace (env : Env) (b : Bool) (db : List Post)
    (ops : List StoreOp) (postID : PostId) (user : User) :
    (addUserToUpVoters (env.withNamespace b) db ops postID user).outcome =
        (addUserToUpVoters env db ops postID user).outcome ∧
      (addUserToUpVoters (env.withNamespace b) db ops postID user).db =
        (addUserToUpVoters env db ops postID user).db := by
  cases hadd : env.faults.add with
  | some e => simp [addUserToUpVoters, Env.withNamespace, hadd]
  | none =>
    have h := populateAuthorOfPost_withNamespace env b
      (findByIdAndUpdate db postID (Update.addToSet .upVoters user.id 1)).1
      (ops ++ [.findByIdAndUpdate postID (Update.addToSet .upVoters user.id 1)])
      (findByIdAndUpdate db postID (Update.addToSet .upVoters user.id 1)).2
    have e1 : (env.withNamespace b).faults.add = Option.none := hadd
    simp only [addUserToUpVoters, e1, hadd]
    exact h

theorem addUserToDownVoters_withNamespace (env : Env) (b : Bool) (db : List Post)
    (ops : List StoreOp) (user : User) (post : Option Post) :
    (addUserToDownVoters (env.withNamespace b) db ops user post).outcome =
        (addUserToDownVoters env db ops user post).outcome ∧
      (addUserToDownVoters (env.withNamespace b) db ops user post).db =
        (addUserToDownVoters env db ops user post).db := by
  cases post with
  | none => exact ⟨rfl, rfl⟩
  | some p =>
    cases hadd : env.faults.add with
    | some e => simp [addUserToDownVoters, Env.withNamespace, hadd]
    | none =>
      have h := populateAndRespond_withNamespace env b
        (findByIdAndUpdate db p.id (Update.addToSet .downVoters user.id (-1))).1
        (ops ++ [.findByIdAndUpdate p.id (Update.addToSet .downVoters user.id (-1))])
        (findByIdAndUpdate db p.id (Update.addToSet .downVoters user.id (-1))).2
      have e1 : (env.withNamespace b).faults.add = Option.none := hadd
      simp only [addUserToDownVoters, e1, hadd]
      exact h

theorem upVote_withNamespace (env : Env) (b : Bool) (db : List Post) (args : VoteArgs)
    (context : Context) :
    (upVote (env.withNamespace b) db args context).outcome =
        (upVote env db args context).outcome ∧
      (upVote (env.withNamespace b) db args context).db = (upVote env db args context).db := by
  unfold upVote
  simp only []
  split
  · exact ⟨rfl, rfl⟩
  · have e1 : (env.withNamespace b).faults = env.faults := rfl
    rw [e1]
    split
    · exact ⟨rfl, rfl⟩
    · unfold checkUserInIsUpVoters
      split
      · exact ⟨rfl, rfl⟩
      · split
        · exact ⟨rfl, rfl⟩
        · unfold removeUserFromDownVoters
          split
          · simp only []
            rw [e1]
            split
            · exact ⟨rfl, rfl⟩
            · exact addUserToUpVoters_withNamespace _ _ _ _ _ _
          · exact addUserToUpVoters_withNamespace _ _ _ _ _ _

theorem downVote_withNamespace (env : Env) (b : Bool) (db : List Post) (args : VoteArgs)
    (context : Context) :
    (downVote (env.withNamespace b) db args context).outcome =
        (downVote env db args context).outcome ∧
      (downVote (env.withNamespace b) db args context).db =
        (downVote env db args context).db := by
  unfold downVote
  simp only []
  split
  · exact ⟨rfl, rfl⟩
  · have e1 : (env.withNamespace b).faults = env.faults := rfl
    rw [e1]
    split
    · exact ⟨rfl, rfl⟩
    · unfold checkUserIsOnDownVoters
      split
      · exact ⟨rfl, rfl⟩
      · split
        · exact ⟨rfl, rfl⟩
        · unfold removeUserFromUpVoters
          split
          · simp only []
            rw [e1]
            split
            · exact ⟨rfl, rfl⟩
            · exact addUserToDownVoters_withNamespace _ _ _ _ _ _
          · exact addUserToDownVoters_withNamespace _ _ _ _ _ _

/-- What both mutations share about resolving and emitting, by direction. -/
theorem run_resolved {c : Call} {db : List Post} {doc : PostDoc}
    (h : (c.run db).outcome = .resolved doc) :
    ROLE_USER ∈ c.context.user.roles ∧ c.env.faults.find = Option.none ∧
      c.env.faults.add = Option.none ∧ c.env.faults.populate = Option.none ∧
      (∃ p, findById db c.args.postID = some p ∧
        (c.dir = .up → c.context.user.id ∉ p.upVoters) ∧
        (c.dir = .down → c.context.user.id ∉ p.downVoters)) ∧
      findById (c.run db).db c.args.postID = some doc.post ∧
      doc = populateAuthor c.env.users doc.post ∧
      (c.run db).emitted =
        if c.env.namespaceRegistered then [{ event := "update", payload := doc.toJSON }]
        else [] := by
  unfold Call.run at h ⊢
  cases hdir : c.dir with
  | up =>
    rw [hdir] at h
    simp only [] at h ⊢
    obtain ⟨h1, h2, h3, h4, p, hp, hup, hpl⟩ := upVote_resolved_cond h
    obtain ⟨q, _, _, _, hout, hst, _, hem⟩ := upVote_ok h1 h2 h3 h4 hp hup hpl
    have hdoc : doc = populateAuthor c.env.users
        ((Update.addToSet .upVoters c.context.user.id 1).apply q) := by
      rw [hout] at h
      exact (Outcome.resolved.inj h).symm
    subst hdoc
    exact ⟨h1, h2, h3, h4, ⟨p, hp, (fun _ => hup), (fun hd => by cases hd)⟩, hst, rfl, hem⟩
  | down =>
    rw [hdir] at h
    simp only [] at h ⊢
    obtain ⟨h1, h2, h5, h3, h4, p, hp, hdown, hup⟩ := downVote_resolved_cond h
    obtain ⟨_, hout, hst, _, hem⟩ := downVote_ok h1 h2 h5 h3 h4 hp hdown hup
    have hdoc : doc = populateAuthor c.env.users
        ((Update.addToSet .downVoters c.context.user.id (-1)).apply
          ((Update.pull .upVoters c.context.user.id (-1)).apply p)) := by
      rw [hout] at h
      exact (Outcome.resolved.inj h).symm
    subst hdoc
    exact ⟨h1, h2, h3, h4, ⟨p, hp, (fun hd => by cases hd), fun _ => hdown⟩, hst, rfl, hem⟩

theorem upVote_emitted (env : Env) (db : List Post) (args : VoteArgs) (context : Context) :
    (∃ doc, (upVote env db args context).outcome = .resolved doc) ∨
      (upVote env db args context).emitted = [] := by
  unfold upVote
  simp only []
  split
  · exact Or.inr rfl
  · split
    · exact Or.inr rfl
    · unfold checkUserInIsUpVoters
      split
      · exact Or.inr rfl
      · split
        · exact Or.inr rfl
        · unfold removeUserFromDownVoters
          split
          · simp only []
            split
            · exact Or.inr rfl
            · exact addUserToUpVoters_emitted _ _ _ _ _
          · exact addUserToUpVoters_emitted _ _ _ _ _

theorem downVote_emitted (env : Env) (db : List Post) (args : VoteArgs) (context : Context) :
    (∃ doc, (downVote env db args context).outcome = .resolved doc) ∨
      (downVote env db args context).emitted = [] := by
  unfold downVote
  simp only []
  split
  · exact Or.inr rfl
  · split
    · exact Or.inr rfl
    · unfold checkUserIsOnDownVoters
      split
      · exact Or.inr rfl
      · split
        · exact Or.inr rfl
        · unfold removeUserFromUpVoters
          split
          · simp only []
            split
            · exact Or.inr rfl
            · exact addUserToDownVoters_emitted _ _ _ _ _
          · exact addUserToDownVoters_emitted _ _ _ _ _

theorem run_emitted (c : Call) (db : List Post) :
    (∃ doc, (c.run db).outcome = .resolved doc) ∨ (c.run db).emitted = [] := by
  unfold Call.run
  cases c.dir
  · exact upVote_emitted _ _ _ _
  · exact downVote_emitted _ _ _ _

theorem run_withNamespace (c : Call) (b : Bool) (db : List Post) :
    ((c.withNamespace b).run db).outcome = (c.run db).outcome ∧
      ((c.withNamespace b).run db).db = (c.run db).db := by
  unfold Call.run Call.withNamespace
  cases hdir : c.dir
  · exact upVote_withNamespace _ _ _ _ _
  · exact downVote_withNamespace _ _ _ _ _

/-! ## Emission -/

/-- C8, broadcast cardinality, with the emissions of a call as an explicit
list: a call of `upVote` or `downVote` that resolves has resolved with the
stored post, author populated, and has emitted exactly the one message
"update" carrying that document serialized when the "/posts" namespace is
registered, and no message when it is not; a call that does not resolve has
emitted nothing; a call resolves only for a caller with the user role, on a
post that was found and that the caller had not yet voted that way, with no
failure of the lookup, of the adding update or of the population; and whether
the namespace is registered changes neither the outcome nor the collection
left. -/
theorem broadcast_cardinality (c : Call) (db : List Post) :
    (∀ doc, (c.run db).outcome = .resolved doc →
      findById (c.run db).db c.args.postID = some doc.post ∧
      doc = populateAuthor c.env.users doc.post ∧
      (c.env.namespaceRegistered = true →
        (c.run db).emitted = [{ event := "update", payload := doc.toJSON }]) ∧
      (c.env.namespaceRegistered = false → (c.run db).emitted = [])) ∧
    ((∀ doc, (c.run db).outcome ≠ .resolved doc) → (c.run db).emitted = []) ∧
    (∀ doc, (c.run db).outcome = .resolved doc →
      ROLE_USER ∈ c.context.user.roles ∧ c.env.faults.find = Option.none ∧
      c.env.faults.add = Option.none ∧ c.env.faults.populate = Option.none ∧
      ∃ p, findById db c.args.postID = some p ∧
        (c.dir = .up → c.context.user.id ∉ p.upVoters) ∧
        (c.dir = .down → c.context.user.id ∉ p.downVoters)) ∧
    (∀ b, ((c.withNamespace b).run db).outcome = (c.run db).outcome ∧
      ((c.withNamespace b).run db).db = (c.run db).db) := by
  refine ⟨?_, ?_, ?_, ?_⟩
  · intro doc h
    obtain ⟨_, _, _, _, _, hst, hdoc, hem⟩ := run_resolved h
    refine ⟨hst, hdoc, ?_, ?_⟩
    · intro hns
      rw [hem, hns]
      rfl
    · intro hns
      rw [hem, hns]
      rfl
  · intro h
    rcases run_emitted c db with ⟨doc, hdoc⟩ | he
    · exact absurd hdoc (h doc)
    · exact he
  · intro doc h
    obtain ⟨h1, h2, h3, h4, h5, _⟩ := run_resolved h
    exact ⟨h1, h2, h3, h4, h5⟩
  · intro b
    exact run_withNamespace c b db

theorem broadcast_cardinality_witness :
    ((voteCall .up U1 10).run [freshPost]).emitted =
      [{ event := "update", payload := (populateAuthor liveEnv.users upVotedPost).toJSON }] ∧
    (((voteCall .up U1 10).withNamespace false).run [freshPost]).emitted = [] ∧
    (((voteCall .up U1 10).withNamespace false).run [freshPost]).outcome =
      ((voteCall .up U1 10).run [freshPost]).outcome ∧
    ((voteCall .up U1 10).run [upVotedPost]).emitted = [] ∧
    ((voteCall .up guest 10).run [freshPost]).emitted = [] ∧
    ((voteCall .down U1 11).run [freshPost]).emitted = [] :=
  ⟨((broadcast_cardinality (voteCall .up U1 10) [freshPost]).1
      (populateAuthor liveEnv.users upVotedPost) (by decide)).2.2.1 rfl,
    ((broadcast_cardinality ((voteCall .up U1 10).withNamespace false) [freshPost]).1
      (populateAuthor liveEnv.users upVotedPost) (by decide)).2.2.2 rfl,
    ((broadcast_cardinality (voteCall .up U1 10) [freshPost]).2.2.2 false).1,
    (broadcast_cardinality (voteCall .up U1 10) [upVotedPost]).2.1
      (fun doc h => by
        have e : ((voteCall .up U1 10).run [upVotedPost]).outcome =
            .rejected (.str alreadyVoted) := by decide
        rw [e] at h
        cases h),
    (broadcast_cardinality (voteCall .up guest 10) [freshPost]).2.1
      (fun doc h => by
        have e : ((voteCall .up guest 10).run [freshPost]).outcome =
            .rejected (.str mustHaveRole) := by decide
        rw [e] at h
        cases h),
    (broadcast_cardinality (voteCall .down U1 11) [freshPost]).2.1
      (fun doc h => by
        have e : ((voteCall .down U1 11).run [freshPost]).outcome =
            .rejected .typeError := by decide
        rw [e] at h
        cases h)⟩

/-! ## Authorization -/

/-- C9, authorization asymmetry: for a context whose `user.roles` does not
hold the user role, the resolvers `posts`, `post`, `author`, `upVoters`,
`downVoters` and `voters` each return `null`, building no query, and `upVote`
and `downVote` are each rejected with the message "Must has 'user' role for
this function!", having issued no store call, with the collection unchanged
and nothing emitted. -/
theorem authorization_asymmetry (context : Context) (hrole : ROLE_USER ∉ context.user.roles)
    (args : ListArgs) (decodeHex : String → Option Nat) (pargs : PostArgs) (p : Post)
    (env : Env) (db : List Post) (vargs : VoteArgs) :
    posts args context = .null ∧
    post decodeHex pargs context = .null ∧
    author p context = .null ∧
    upVoters p args context = .null ∧
    downVoters p args context = .null ∧
    voters p args context = .null ∧
    upVote env db vargs context =
      { outcome := .rejected (.str mustHaveRole), db := db, ops := [], emitted := [] } ∧
    downVote env db vargs context =
      { outcome := .rejected (.str mustHaveRole), db := db, ops := [], emitted := [] } := by
  have h : hasRole context ROLE_USER = false := (hasRole_false_iff _ _).2 hrole
  refine ⟨?_, ?_, ?_, ?_, ?_, ?_, ?_, ?_⟩
  · simp [posts, h]
  · simp [post, h]
  · simp [author, h]
  · simp [upVoters, h]
  · simp [downVoters, h]
  · simp [voters, h]
  · simp [upVote, h]
  · simp [downVote, h]

theorem authorization_asymmetry_witness :
    ROLE_USER ∉ guest.roles ∧
    posts { limit := some 5, offset := Option.none, sort := Option.none }
      { user := guest } = .null ∧
    post (fun _ => Option.none) { id := some 10, code := Option.none } { user := guest } =
      .null ∧
    author upVotedPost { user := guest } = .null ∧
    upVoters upVotedPost { limit := some 5, offset := Option.none, sort := Option.none }
      { user := guest } = .null ∧
    downVoters upVotedPost { limit := some 5, offset := Option.none, sort := Option.none }
      { user := guest } = .null ∧
    voters upVotedPost { limit := some 5, offset := Option.none, sort := Option.none }
      { user := guest } = .null ∧
    upVote liveEnv [upVotedPost] { postID := 10 } { user := guest } =
      { outcome := .rejected (.str mustHaveRole), db := [upVotedPost], ops := [],
        emitted := [] } ∧
    downVote liveEnv [upVotedPost] { postID := 10 } { user := guest } =
      { outcome := .rejected (.str mustHaveRole), db := [upVotedPost], ops := [],
        emitted := [] } :=
  ⟨by decide,
    authorization_asymmetry { user := guest } (by decide)
      { limit := some 5, offset := Option.none, sort := Option.none } (fun _ => Option.none)
      { id := some 10, code := Option.none } upVotedPost liveEnv [upVotedPost]
      { postID := 10 }⟩

/-! ## Voter listing -/

theorem applyLimitOffsetSort_filter (query : Query) (args : ListArgs) :
    (applyLimitOffsetSort query args).filter = query.filter ∧
      (applyLimitOffsetSort query args).model = query.model := by
  unfold applyLimitOffsetSort
  simp only []
  constructor <;> (split <;> split <;> split <;> rfl)

/-- C10, all-voters union: for a caller with the user role and a post whose
`upVoters` and `downVoters` are each duplicate-free and have no id in common,
the `voters` resolver runs a query on users whose `_id` must be in a list
that holds no id twice and that holds an id exactly when `upVoters` or
`downVoters` holds it. -/
theorem voters_union (p : Post) (args : ListArgs) (context : Context)
    (hrole : ROLE_USER ∈ context.user.roles) (hd : Disjointness p) :
    ∃ q ids, voters p args context = .exec q ∧ q.model = .User ∧ q.filter = .idIn ids ∧
      ids.Nodup ∧ ∀ u, u ∈ ids ↔ u ∈ p.upVoters ∨ u ∈ p.downVoters := by
  have h := applyLimitOffsetSort_filter (find .User (.idIn (p.upVoters ++ p.downVoters))) args
  refine ⟨applyLimitOffsetSort (find .User (.idIn (p.upVoters ++ p.downVoters))) args,
    p.upVoters ++ p.downVoters, ?_, h.2, h.1, ?_, ?_⟩
  · simp [voters, hasRole_not_eq hrole]
  · rw [List.nodup_append]
    exact ⟨hd.1, hd.2.1, fun u hu hdn => hd.2.2 u ⟨hu, hdn⟩⟩
  · intro u
    exact List.mem_append

/-- A post with one up-voter and one down-voter. -/
theorem disjointness_sample : Disjointness
    { id := 10, author := 2, upVoters := [1], downVoters := [2], votes := 0 } := by
  refine ⟨?_, ?_, ?_⟩
  · decide
  · decide
  · intro u h
    have h1 : u = 1 := by simpa using h.1
    have h2 : u = 2 := by simpa using h.2
    rw [h1] at h2
    exact absurd h2 (by decide)

theorem voters_union_witness :
    (ROLE_USER ∈ U1.roles ∧
      Disjointness { id := 10, author := 2, upVoters := [1], downVoters := [2], votes := 0 }) ∧
    ∃ q ids, voters { id := 10, author := 2, upVoters := [1], downVoters := [2], votes := 0 }
        { limit := some 5, offset := Option.none, sort := some "fullName" } { user := U1 } =
          .exec q ∧
      q.model = .User ∧ q.filter = .idIn ids ∧ ids.Nodup ∧
      ∀ u, u ∈ ids ↔ u ∈ [1] ∨ u ∈ [2] :=
  ⟨⟨by decide, disjointness_sample⟩,
    voters_union { id := 10, author := 2, upVoters := [1], downVoters := [2], votes := 0 }
      { limit := some 5, offset := Option.none, sort := some "fullName" } { user := U1 }
      (by decide) disjointness_sample⟩

end Posts
